import Mathlib

/-!
Verification of the build_pyoptsparse dependency-build orchestrator.

This file is a shallow embedding, in Lean 4, of the decision logic of
`build_pyoptsparse.py` and of the SNOPT helper scripts in the
`build_pyoptsparse/` package directory.  Filesystem state is modelled as
explicit lists of file and directory paths (a path is a list of string
components); external commands are modelled by explicit success/failure
oracles; exceptions are modelled with `Except`.  Each definition is a direct
translation of the corresponding Python function, keeping its name.
-/

namespace BuildPyoptsparse

/-- A filesystem path, as a list of components.  `pathlib` path arithmetic
(`Path(a) / b`) corresponds to appending components. -/
abbrev FPath := List String

/-- Joining one component onto a path, as `pathlib` does: a `"."` component is
dropped (`PurePath("a") / "."` is `PurePath("a")`). -/
def joinComp (p : FPath) (c : String) : FPath :=
  if c = "." then p else p ++ [c]

/-- An abstract filesystem: the set of regular files and the set of
directories, each given as a list of absolute paths. -/
structure FS where
  files : List FPath
  dirs : List FPath
  deriving Repr, DecidableEq

/-- `Path.is_file()`. -/
def FS.is_file (fs : FS) (p : FPath) : Bool := fs.files.contains p

/-- `Path.is_dir()`. -/
def FS.is_dir (fs : FS) (p : FPath) : Bool := fs.dirs.contains p

/-! ## The dependency registry (`build_info`) -/

/-- Keys of the `build_info` dict. -/
inductive DepKey
  | metis | mumps | ipopt | pyoptsparse | hsl | paropt
  deriving Repr, DecidableEq

/-- One entry of the `build_info` dict.  Fields that only some entries carry
are `Option`s (a Python `KeyError` on a missing field corresponds to `none`). -/
structure DepInfo where
  url : String
  branch : String := ""
  src_lib_glob : Option String := none
  include_subdir : Option String := none
  include_glob_list : Option (List String) := none
  include_file : Option String := none
  deriving Repr, DecidableEq

/-- The static `build_info` table of `build_pyoptsparse.py`.  (The
pyoptsparse branch pin is `v2.10.1` for numpy < 2 and `v2.13.1` otherwise;
the numpy < 2 value is used here — no verified property depends on it.) -/
def build_info : DepKey → DepInfo
  | .metis =>
    { url := "https://github.com/coin-or-tools/ThirdParty-Metis.git"
      branch := "releases/2.0.0"
      src_lib_glob := some "libcoinmetis*"
      include_subdir := some "metis"
      include_file := some "metis.h" }
  | .mumps =>
    { url := "https://github.com/coin-or-tools/ThirdParty-Mumps.git"
      branch := "releases/3.0.2"
      src_lib_glob := some "libcoinmumps*"
      include_subdir := some "mumps"
      include_file := some "mumps_c_types.h" }
  | .ipopt =>
    { url := "https://github.com/coin-or/Ipopt.git"
      branch := "releases/3.14.7"
      src_lib_glob := some "lib*ipopt*"
      include_subdir := some "."
      include_glob_list := some ["Ip*.hpp", "Sens*.hpp", "Ip*.h", "Ip*.inc"]
      include_file := some "IpoptConfig.h" }
  | .pyoptsparse =>
    { url := "https://github.com/mdolab/pyoptsparse.git"
      branch := "v2.10.1" }
  | .hsl =>
    { url := "https://github.com/coin-or-tools/ThirdParty-HSL"
      branch := "releases/2.2.1"
      src_lib_glob := some "libcoinhsl*"
      include_subdir := some "hsl"
      include_file := some "CoinHslConfig.h" }
  | .paropt =>
    { url := "https://github.com/smdogroup/paropt.git"
      branch := "v2.1.4"
      src_lib_glob := some "libparopt*" }

/-! ## `get_coin_inc_dir` and `allow_build` -/

/-- `get_coin_inc_dir()`: try `prefix/include/coin-or` then `prefix/include/coin`;
return the first that is a directory, else `None`. -/
def get_coin_inc_dir (fs : FS) (pfx : FPath) : Option FPath :=
  if fs.is_dir (pfx ++ ["include", "coin-or"]) then some (pfx ++ ["include", "coin-or"])
  else if fs.is_dir (pfx ++ ["include", "coin"]) then some (pfx ++ ["include", "coin"])
  else none

/-- The marker header path tested by `allow_build`:
`Path(coin_dir) / d['include_subdir'] / d['include_file']`.
Both dict accesses must succeed, hence the `Option`s. -/
def marker_path (coin_dir : FPath) (d : DepInfo) : Option FPath :=
  match d.include_subdir, d.include_file with
  | some sub, some f => some (joinComp (joinComp coin_dir sub) f)
  | _, _ => none

/-- `allow_build(build_key)`: if no coin include directory exists the build is
allowed unconditionally; otherwise it is allowed iff `force_build` is set or
the marker header is not a file.  Returns `none` when the registry entry
lacks the marker fields (Python would raise `KeyError`; never happens for the
keys `allow_build` is called with). -/
def allow_build (fs : FS) (force_build : Bool) (pfx : FPath) (key : DepKey) : Option Bool :=
  match get_coin_inc_dir fs pfx with
  | none => some true
  | some coin_dir =>
    match marker_path coin_dir (build_info key) with
    | none => none
    | some mp => some (force_build || !(fs.is_file mp))

/-! ## Command-line processing (`process_command_line`) -/

/-- The `--linear-solver` argparse choices. -/
inductive LinearSolver
  | mumps | hsl | pardiso
  deriving Repr, DecidableEq

/-- The parsed command-line arguments relevant to the verified logic
(the `args` object returned by `parser.parse_args()`). -/
structure Args where
  paropt : Bool := false
  conda_cmd : Option String := none
  no_delete : Bool := false
  ignore_conda : Bool := false
  force_build : Bool := false
  fall_back : Bool := false
  no_sanity_check : Bool := false
  intel : Bool := false
  linear_solver : LinearSolver := .mumps
  ignore_mamba : Bool := false
  no_install : Bool := false
  no_ipopt : Bool := false
  pfx : FPath := ["home", "pyoptsparse"]
  pip_cmd : String := "pip"
  snopt_dir : Option FPath := none
  hsl_tar_file : Option FPath := none
  uninstall : Bool := false
  verbose : Bool := false
  deriving Repr, DecidableEq

/-- A pyOptSparse version, as parsed by `packaging.version.parse` on the
`major.minor.micro` strings this script compares against. -/
abbrev Version := Nat × Nat × Nat

/-- `packaging` version comparison (lexicographic on release numbers). -/
def verLt (a b : Version) : Bool :=
  a.1 < b.1 || (a.1 = b.1 && (a.2.1 < b.2.1 || (a.2.1 = b.2.1 && a.2.2 < b.2.2)))

/-- The mutable `opts` dict (the fields the verified logic reads or writes). -/
structure Opts where
  pfx : FPath := ["home", "pyoptsparse"]
  linear_solver : LinearSolver := .mumps
  build_pyoptsparse : Bool := true
  intel_compiler_suite : Bool := false
  snopt_dir : Option FPath := none
  hsl_tar_file : Option FPath := none
  include_paropt : Bool := false
  include_ipopt : Bool := true
  keep_build_dir : Bool := false
  check_sanity : Bool := true
  conda_cmd : String := "conda"
  force_build : Bool := false
  ignore_conda : Bool := false
  ignore_mamba : Bool := false
  verbose : Bool := false
  compile_required : Bool := true
  uninstall : Bool := false
  -- Set by `finish_setup()` before any read (`None` until then in the source).
  pyoptsparse_version : Version := (0, 0, 0)
  make_name : String := "make"
  fall_back : Bool := false
  pip_cmd : String := "pip"
  deriving Repr, DecidableEq

/-- The environment state `process_command_line` consults: whether
`CONDA_PREFIX` is in `os.environ`, whether `which('mamba')` finds mamba, and
the stdout of the `conda info --unsafe-channels` probe. -/
structure CondaEnv where
  conda_active : Bool
  mamba_found : Bool
  conda_info_output : String
  deriving Repr, DecidableEq

/-- `conda_is_active()`: `'CONDA_PREFIX' in os.environ`. -/
def conda_is_active (env : CondaEnv) : Bool := env.conda_active

/-- Substring search: does `needle` occur contiguously in the list? -/
def containsSub (needle : List Char) : List Char → Bool
  | [] => needle.isEmpty
  | c :: rest => needle.isPrefixOf (c :: rest) || containsSub needle rest

/-- One-line semantics of the regex `conda.*forge`: an occurrence of
`"conda"` with an occurrence of `"forge"` at or after its end.  (Checking
only the first `"conda"` occurrence is complete: any `"forge"` occurring
after a later `"conda"` occurrence also occurs after the first one.) -/
def condaThenForge : List Char → Bool
  | [] => false
  | c :: rest =>
    if "conda".data.isPrefixOf (c :: rest) then
      containsSub "forge".data ((c :: rest).drop 5)
    else
      condaThenForge rest

/-- Split a character list at a separator character. -/
def splitOnCharL (sep : Char) : List Char → List (List Char)
  | [] => [[]]
  | c :: rest =>
    if c = sep then [] :: splitOnCharL sep rest
    else
      match splitOnCharL sep rest with
      | [] => [[c]]
      | l :: ls => (c :: l) :: ls

/-- Split a character list at newline characters (Python `.` in a regex does
not match `'\n'`, so `conda.*forge` must match within a single line). -/
def splitLines (s : List Char) : List (List Char) :=
  splitOnCharL '\n' s

/-- `re.search(r'conda.*forge', out) is not None`: the pattern matches within
some single line of the output. -/
def re_search_conda_forge (out : String) : Bool :=
  (splitLines out.data).any condaThenForge

/-- `process_command_line()`, lines 213-261: copy the parsed arguments into
`opts`, determine the conda command, and, when conda is active, not ignored
and not uninstalling, probe for the conda-forge channel, recording the result
in `sys_info['conda_forge_available']` (returned as the second component;
its initial value is `False`). -/
def process_command_line (args : Args) (env : CondaEnv) : Opts × Bool :=
  let o : Opts :=
    { include_paropt := args.paropt
      include_ipopt := !args.no_ipopt
      ignore_conda := args.ignore_conda
      ignore_mamba := args.ignore_mamba }
  -- The `if opts['ignore_conda'] is False and conda_is_active():` block.
  let inCondaBlock := !o.ignore_conda && conda_is_active env
  let o := if inCondaBlock then
      { o with conda_cmd :=
          match args.conda_cmd with
          | some c => c
          | none => if o.ignore_mamba || env.mamba_found = false then "conda" else "mamba" }
    else o
  let probe := inCondaBlock && !args.uninstall
  let forge_avail := probe && re_search_conda_forge env.conda_info_output
  -- On a failed probe the source sets `opts['compile_required'] = True`
  -- (already its default, unchanged elsewhere before `finish_setup`).
  let o := if probe && !forge_avail then { o with compile_required := true } else o
  let o :=
    { o with
      keep_build_dir := args.no_delete
      force_build := args.force_build
      fall_back := args.fall_back
      check_sanity := !args.no_sanity_check
      linear_solver := args.linear_solver
      intel_compiler_suite := if args.linear_solver = .pardiso then true else args.intel
      pfx := args.pfx
      build_pyoptsparse := !args.no_install
      pip_cmd := args.pip_cmd
      snopt_dir := args.snopt_dir
      hsl_tar_file := args.hsl_tar_file
      verbose := args.verbose
      uninstall := args.uninstall }
  (o, forge_avail)

/-- `allow_install_with_conda()`: conda active, not ignored, and the
conda-forge channel was found by the startup probe. -/
def allow_install_with_conda (env : CondaEnv) (o : Opts) (forge_available : Bool) : Bool :=
  conda_is_active env && !o.ignore_conda && forge_available

/-! ## Glob matching and filesystem operations

Used by the uninstaller (`uninstall_built_item`) and by the library-name
probes (`get_coin_lib_name`). -/

/-- All suffixes of a character list, longest first. -/
def tailsList : List Char → List (List Char)
  | [] => [[]]
  | c :: rest => (c :: rest) :: tailsList rest

/-- Shell-style glob matching with the `*` wildcard (the only metacharacter
appearing in this program's patterns), on character lists: `*` consumes an
arbitrary suffix start. -/
def globMatch : List Char → List Char → Bool
  | [], s => s.isEmpty
  | '*' :: ps, s => (tailsList s).any (fun t => globMatch ps t)
  | _ :: _, [] => false
  | p :: ps, c :: s => p = c && globMatch ps s

/-- `dir.glob(pat)` membership test for one path: a direct child of `dir`
whose final component matches the pattern (patterns here contain no `/`). -/
def globChild (dir : FPath) (pat : String) (p : FPath) : Bool :=
  match p.getLast? with
  | none => false
  | some c => (p.dropLast = dir) && globMatch pat.data c.data

/-- `sorted(Path(dir).glob(pat))`: every entry (file or directory) of the
filesystem that is a direct child of `dir` and matches `pat`.  A real
directory listing has no duplicates, hence the `dedup`; the `sorted` of the
source only fixes the iteration order, on which the verified results do not
depend. -/
def globIn (fs : FS) (dir : FPath) (pat : String) : List FPath :=
  ((fs.files ++ fs.dirs).filter (globChild dir pat)).dedup

/-- Python exceptions that can surface in the modelled code. -/
inductive PyExc
  | calledProcessError (cmd : List String)
  | fileNotFoundError (p : FPath)
  | isADirectoryError (p : FPath)
  | indexError
  | keyError
  deriving Repr, DecidableEq

/-- `Path.unlink()`: remove a regular file; `FileNotFoundError` if it does
not exist, `IsADirectoryError` if the path is a directory. -/
def FS.unlink (fs : FS) (p : FPath) : Except PyExc FS :=
  if fs.is_dir p then .error (.isADirectoryError p)
  else if fs.is_file p then .ok { fs with files := fs.files.filter (· ≠ p) }
  else .error (.fileNotFoundError p)

/-- Unlink each path of a list in order (the `for ... unlink()` loops of
`uninstall_built_item`). -/
def unlinkList (fs : FS) : List FPath → Except PyExc FS
  | [] => .ok fs
  | p :: rest => do
    let fs2 ← fs.unlink p
    unlinkList fs2 rest

/-- `shutil.rmtree(p)`: remove the directory `p` and everything below it;
error if `p` is not a directory. -/
def FS.rmtree (fs : FS) (p : FPath) : Except PyExc FS :=
  if fs.is_dir p then
    .ok { files := fs.files.filter (fun q => ¬ p.isPrefixOf q)
          dirs := fs.dirs.filter (fun q => ¬ p.isPrefixOf q) }
  else .error (.fileNotFoundError p)

/-- The guarded `try: inc_dir.rmdir() except: pass` of `uninstall_built_item`:
remove the directory when it exists and is empty, otherwise leave the
filesystem unchanged (the exception is swallowed). -/
def FS.rmdirSafe (fs : FS) (p : FPath) : FS :=
  if fs.is_dir p
      && (fs.files ++ fs.dirs).all (fun q => q = p || ¬ p.isPrefixOf q) then
    { files := fs.files, dirs := fs.dirs.filter (· ≠ p) }
  else fs

/-! ## The uninstaller -/

/-- Name order of the `for glob_item in d['include_glob_list']` loop: glob the
current filesystem for one pattern, unlink every match, move to the next
pattern.  (Each pattern is globbed against the filesystem as it is after the
previous pattern's removals, exactly as the source re-runs `Path.glob` per
loop iteration.) -/
def globUnlinkLoop (dir : FPath) : List String → FS → Except PyExc FS
  | [], fs => .ok fs
  | pat :: rest, fs => do
    let fs2 ← unlinkList fs (globIn fs dir pat)
    globUnlinkLoop dir rest fs2

/-- The include-file block of `uninstall_built_item`: remove the include
files individually when the registry entry has `include_glob_list` (then try
to remove the now-possibly-empty directory, swallowing errors), or the whole
include subdirectory when present. -/
def uninstall_item_includes (pfx : FPath) (key : DepKey) (fs : FS) :
    Except PyExc FS :=
  match (build_info key).include_subdir with
  | none => pure fs
  | some sub =>
    let inc_dir := joinComp (pfx ++ ["include", "coin-or"]) sub
    match (build_info key).include_glob_list with
    | some gl => do
      let fs2 ← globUnlinkLoop inc_dir gl fs
      pure (fs2.rmdirSafe inc_dir)
    | none =>
      if fs.is_dir inc_dir then fs.rmtree inc_dir else pure fs

/-- The library block of `uninstall_built_item`: unlink every file matching
`src_lib_glob` under `prefix/lib`, when the registry entry has the glob. -/
def uninstall_item_libs (pfx : FPath) (key : DepKey) (fs : FS) :
    Except PyExc FS :=
  match (build_info key).src_lib_glob with
  | none => pure fs
  | some lg =>
    let lib_file_list := globIn fs (pfx ++ ["lib"]) lg
    if lib_file_list.length > 0 then unlinkList fs lib_file_list else pure fs

/-- `uninstall_built_item(build_key)`: the include-file block, then the
library block. -/
def uninstall_built_item (pfx : FPath) (key : DepKey) (fs : FS) :
    Except PyExc FS := do
  let fs ← uninstall_item_includes pfx key fs
  uninstall_item_libs pfx key fs

/-- `remove_conda_scripts()`: when conda is active and not ignored, remove the
activate/deactivate scripts if they exist.  The directories are those set by
`initialize()`; `Path(None)` (scripts dirs unset while the guard holds) would
be a `TypeError`. -/
def remove_conda_scripts (conda_active ignore_conda : Bool)
    (act_dir deact_dir : Option FPath) (fs : FS) : Except PyExc FS :=
  if conda_active && !ignore_conda then do
    match act_dir, deact_dir with
    | some ad, some dd => do
      let fs ← if fs.is_file (ad ++ ["pyoptsparse_lib.sh"]) then
          fs.unlink (ad ++ ["pyoptsparse_lib.sh"]) else pure fs
      if fs.is_file (dd ++ ["pyoptsparse_lib.sh"]) then
        fs.unlink (dd ++ ["pyoptsparse_lib.sh"]) else pure fs
    | _, _ => .error .keyError
  else pure fs

/-- `uninstall_built()`: pip-uninstall pyOptSparse and ParOpt (external
commands run with `do_check=False`, no filesystem effect and no exception),
then remove the built artifacts of ParOpt, IPOPT, HSL, MUMPS and METIS, then
the conda scripts unless conda is ignored. -/
def uninstall_built (conda_active ignore_conda : Bool)
    (act_dir deact_dir : Option FPath) (pfx : FPath) (fs : FS) :
    Except PyExc FS := do
  let fs ← uninstall_built_item pfx .paropt fs
  let fs ← uninstall_built_item pfx .ipopt fs
  let fs ← uninstall_built_item pfx .hsl fs
  let fs ← uninstall_built_item pfx .mumps fs
  let fs ← uninstall_built_item pfx .metis fs
  if ignore_conda = false then
    remove_conda_scripts conda_active ignore_conda act_dir deact_dir fs
  else pure fs

/-- The uninstall mode of `perform_install()`: after `initialize()` (which,
when conda is active and not ignored, points the prefix at `CONDA_PREFIX` and
sets the activate/deactivate script directories), run
`uninstall_conda_pkgs()` (external `conda uninstall` commands with
`do_check=False`: no filesystem effect, no exception) and `uninstall_built()`,
then `exit(0)`.  `pfx` is the effective prefix after `initialize()`. -/
def perform_uninstall (conda_active ignore_conda : Bool) (pfx : FPath)
    (fs : FS) : Except PyExc (FS × Nat) := do
  let act_dir := if conda_active && !ignore_conda then
      some (pfx ++ ["etc", "conda", "activate.d"]) else none
  let deact_dir := if conda_active && !ignore_conda then
      some (pfx ++ ["etc", "conda", "deactivate.d"]) else none
  let fs ← uninstall_built conda_active ignore_conda act_dir deact_dir pfx fs
  pure (fs, 0)

/-- The keys of the `build_info` dict, in declaration order. -/
def allDepKeys : List DepKey := [.metis, .mumps, .ipopt, .pyoptsparse, .hsl, .paropt]

/-- A filesystem is safe for the uninstaller when directories and files are
disjoint (true of every real filesystem) and no directory matches any of the
uninstall glob patterns at the directories they are applied to — in
particular any layout the installer itself produces, where every glob match
is a regular file. -/
def uninstallSafe (pfx : FPath) (fs : FS) : Bool :=
  fs.dirs.all (fun p =>
    !(fs.files.contains p)
    && allDepKeys.all (fun k =>
      (match (build_info k).src_lib_glob with
       | some lg => !(globChild (pfx ++ ["lib"]) lg p)
       | none => true)
      &&
      (match (build_info k).include_subdir, (build_info k).include_glob_list with
       | some sub, some gl =>
         gl.all (fun pat =>
           !(globChild (joinComp (pfx ++ ["include", "coin-or"]) sub) pat p))
       | _, _ => true)))

/-! ## The source-build pipeline as a state machine

The mutable process state the pipeline steps touch: the current working
directory, the `dir_stack` of `pushd`/`popd`, the filesystem, and a trace of
the external actions performed (process spawns, renames, copies).  External
commands succeed or fail according to explicit oracles; an uncaught Python
exception is an `Except.error` carrying the exception and the process state
at the moment it was raised. -/

/-- Render a path the way the source interpolates `Path` values into command
strings. -/
def pathStr (p : FPath) : String :=
  String.intercalate "/" p

/-- One observable action of a pipeline step. -/
inductive BuildAction
  | runCmd (cmd : List String)
  | makeWithJ (j : Nat)
  | renamePath (old new : FPath)
  | copyFile (src dest : FPath)
  deriving Repr, DecidableEq

/-- The process state threaded through the pipeline. -/
structure BuildState where
  cwd : FPath
  dir_stack : List FPath
  fs : FS
  trace : List BuildAction
  deriving Repr, DecidableEq

/-- Pipeline step result: the final state, or the raised exception together
with the state at the raise point. -/
abbrev BResult := Except (PyExc × BuildState) BuildState

/-- Append an action to the trace. -/
def blog (s : BuildState) (a : BuildAction) : BuildState :=
  { s with trace := s.trace ++ [a] }

/-- `pushd(dirname)`: append the current directory to `dir_stack`, then
`chdir` to `dirname` (Python `list.append` adds at the end). -/
def pushd (dirname : FPath) (s : BuildState) : BuildState :=
  { s with dir_stack := s.dir_stack ++ [s.cwd], cwd := dirname }

/-- `popd()`: `dir_stack.pop()` takes the last element (`IndexError` on an
empty stack), then `chdir` to it. -/
def popd (s : BuildState) : BResult :=
  match s.dir_stack.getLast? with
  | none => .error (.indexError, s)
  | some d => .ok { s with cwd := d, dir_stack := s.dir_stack.dropLast }

/-- `run_cmd(cmd_list)` with default arguments (`do_check=True`,
`raise_error=True`): raises `CalledProcessError` when the process fails. -/
def runCommand (ok : Bool) (cmd : List String) (s : BuildState) : BResult :=
  if ok then .ok (blog s (.runCmd cmd)) else .error (.calledProcessError cmd, s)

/-- `int(os.cpu_count()/2)`: the `sys_info['compile_cores']` startup value. -/
def init_compile_cores (cpu_count : Nat) : Nat :=
  cpu_count / 2

/-- The host facts recorded in `sys_info`. -/
structure SysHost where
  gcc_major_ver : Int := -1
  gcc_is_apple_clang : Bool := false
  sys_name : String := "Linux"
  compile_cores : Nat
  deriving Repr, DecidableEq

/-- `make_install(parallel_procs, make_args, do_install)`: set
`MAKEFLAGS=-j N` (where `N` is the argument, defaulting to
`sys_info['compile_cores']`), run make, then run `make install` when
requested. -/
def make_install (make_name : String) (default_cores : Nat)
    (parallel_procs : Option Nat) (make_args : Option (List String))
    (do_install : Bool) (make_ok install_ok : Bool) (s : BuildState) :
    BResult := do
  let j := parallel_procs.getD default_cores
  let s := blog s (.makeWithJ j)
  let s ← runCommand make_ok ([make_name] ++ make_args.getD []) s
  if do_install then runCommand install_ok [make_name, "install"] s else pure s

/-- Success/failure of the external git commands a clone performs. -/
structure GitOracle where
  clone_ok : Bool := true
  config_ok : Bool := true
  checkout_ok : Bool := true
  deriving Repr, DecidableEq

/-- `git_clone(build_key)`: clone into a fresh temporary directory
(`tmpdir`), `pushd` into it, and check out the pinned branch. -/
def git_clone (key : DepKey) (tmpdir : FPath) (orc : GitOracle)
    (s : BuildState) : BResult := do
  let d := build_info key
  let s ← runCommand orc.clone_ok ["git", "clone", "-q", d.url, pathStr tmpdir] s
  let s := pushd tmpdir s
  if d.branch ≠ "" then do
    let s ← runCommand orc.config_ok
      ["git", "config", "--local", "advice.detachedHead", "false"] s
    runCommand orc.checkout_ok ["git", "checkout", "-q", d.branch] s
  else pure s

/-- Success/failure of the external commands of one source-build step. -/
structure StepOracle where
  git : GitOracle := {}
  pre_ok : Bool := true
  configure_ok : Bool := true
  make_ok : Bool := true
  install_ok : Bool := true
  pip_ok : Bool := true
  deriving Repr, DecidableEq

/-- `get_coin_lib_name(pkg)`: does the installed library start with
`libcoin` or plain `lib`?  `None` when neither glob matches. -/
def get_coin_lib_name (fs : FS) (pfx : FPath) (pkg : String) : Option String :=
  if (globIn fs (pfx ++ ["lib"]) ("libcoin" ++ pkg ++ "*")).length > 0 then
    some ("coin" ++ pkg)
  else if (globIn fs (pfx ++ ["lib"]) ("lib" ++ pkg ++ "*")).length > 0 then
    some pkg
  else none

/-- Python f-string interpolation of an optional value (`None` prints as the
string `None`). -/
def pyStr : Option String → String
  | some v => v
  | none => "None"

/-- `get_common_solver_config_cmd()`: the configure command shared by the
MUMPS and HSL builds, with METIS include/link flags wired in. -/
def get_common_solver_config_cmd (o : Opts) (host : SysHost) (fs : FS) :
    List String :=
  let coin_dir := pyStr ((get_coin_inc_dir fs o.pfx).map pathStr)
  let cflags := "-w -I" ++ pathStr o.pfx ++ "/include -I" ++ coin_dir
    ++ " -I" ++ coin_dir ++ "/metis"
  let fcflags := if host.gcc_major_ver ≥ 10 then
      "-fallow-argument-mismatch " ++ cflags else cflags
  let metis_lib := pyStr (get_coin_lib_name fs o.pfx "metis")
  let metis_lflags := "-L" ++ pathStr o.pfx ++ "/lib -l" ++ metis_lib
  let metis_lflags := if host.sys_name = "Linux" then
      metis_lflags ++ " -lm" else metis_lflags
  ["./configure", "--with-metis",
   "--with-metis-lflags=" ++ metis_lflags,
   "--with-metis-cflags=" ++ cflags,
   "--prefix=" ++ pathStr o.pfx,
   "CFLAGS=" ++ cflags,
   "FCFLAGS=" ++ fcflags]
  ++ (if host.gcc_is_apple_clang then ["--disable-openmp"] else [])

/-- `install_metis_from_src()`: clone METIS, fetch its sources, configure,
make and install (default parallelism), then `popd`. -/
def install_metis_from_src (o : Opts) (host : SysHost) (orc : StepOracle)
    (tmpdir : FPath) (s : BuildState) : BResult :=
  match allow_build s.fs o.force_build o.pfx .metis with
  | none => .error (.keyError, s)
  | some false => .ok s
  | some true => do
    let s ← git_clone .metis tmpdir orc.git s
    let s ← runCommand orc.pre_ok ["./get.Metis"] s
    let s ← runCommand orc.configure_ok
      ["./configure", "--prefix=" ++ pathStr o.pfx] s
    let s ← make_install o.make_name host.compile_cores none none true
      orc.make_ok orc.install_ok s
    popd s

/-- `install_mumps_from_src()`: clone MUMPS, fetch its sources, configure
with the common solver flags, make and install with parallelism 1 (the
source comments: the MUMPS build can fail with parallel make), then `popd`. -/
def install_mumps_from_src (o : Opts) (host : SysHost) (orc : StepOracle)
    (tmpdir : FPath) (s : BuildState) : BResult :=
  match allow_build s.fs o.force_build o.pfx .mumps with
  | none => .error (.keyError, s)
  | some false => .ok s
  | some true => do
    let s ← git_clone .mumps tmpdir orc.git s
    let s ← runCommand orc.pre_ok ["./get.Mumps"] s
    let s ← runCommand orc.configure_ok (get_common_solver_config_cmd o host s.fs) s
    let s ← make_install o.make_name host.compile_cores (some 1) none true
      orc.make_ok orc.install_ok s
    popd s

/-- `install_ipopt_from_src(config_opts)`: clone IPOPT, configure (disabling
the PARDISO loader unless PARDISO was chosen), make and install (default
parallelism), then `popd`. -/
def install_ipopt_from_src (o : Opts) (host : SysHost) (orc : StepOracle)
    (tmpdir : FPath) (config_opts : Option (List String)) (s : BuildState) :
    BResult :=
  match allow_build s.fs o.force_build o.pfx .ipopt with
  | none => .error (.keyError, s)
  | some ab =>
    if !ab || o.include_ipopt = false then .ok s
    else do
      let s ← git_clone .ipopt tmpdir orc.git s
      let cnf := ["./configure", "--prefix=" ++ pathStr o.pfx, "--disable-java"]
        ++ (if o.linear_solver ≠ .pardiso then ["--disable-pardisomkl"] else [])
        ++ config_opts.getD []
      let s ← runCommand orc.configure_ok cnf s
      let s ← make_install o.make_name host.compile_cores none none true
        orc.make_ok orc.install_ok s
      popd s

/-- Replace the path prefix `old` by `new` where it applies. -/
def replacePfx (old new p : FPath) : FPath :=
  if old.isPrefixOf p then new ++ p.drop old.length else p

/-- `os.rename` of a directory carries its whole subtree along. -/
def FS.renameTree (fs : FS) (old new : FPath) : FS :=
  { files := fs.files.map (replacePfx old new)
    dirs := fs.dirs.map (replacePfx old new) }

/-- `Path.rename(target)`: `FileNotFoundError` when the source does not
exist.  (The call sites rename inside a directory that was freshly cloned or
extracted, so the target never pre-exists.) -/
def fs_rename (old new : FPath) (s : BuildState) : BResult :=
  if s.fs.is_dir old || s.fs.is_file old then
    .ok (blog { s with fs := s.fs.renameTree old new } (.renamePath old new))
  else .error (.fileNotFoundError old, s)

/-- `pip install` command assembly (`pip_install`): the pip command split on
whitespace, `install`, `-q` unless verbose, then the arguments. -/
def pip_install_cmd (pip_cmd : String) (verbose : Bool) (args : List String) :
    List String :=
  ((splitOnCharL ' ' pip_cmd.data).filter (· ≠ [])).map (fun l => String.mk l)
    ++ ["install"] ++ (if verbose then [] else ["-q"]) ++ args

/-- `shutil.copy2(src, dest_dir)`: the file appears under its name in the
destination directory. -/
def FS.copyInto (fs : FS) (src dest_dir : FPath) : FS :=
  match src.getLast? with
  | none => fs
  | some name =>
    if fs.files.contains (dest_dir ++ [name]) then fs
    else { fs with files := fs.files ++ [dest_dir ++ [name]] }

/-- The `for lib in lib_files: shutil.copy2(...)` loop of
`install_paropt_from_src`. -/
def copyAllInto (dest_dir : FPath) : List FPath → BuildState → BuildState
  | [], s => s
  | src :: rest, s =>
    copyAllInto dest_dir rest
      (blog { s with fs := s.fs.copyInto src dest_dir } (.copyFile src dest_dir))

/-- `install_paropt_from_src()`: clone ParOpt, switch `Makefile.in.info` to
`Makefile.in`, make (default parallelism, no install target), pip-install the
package, copy the built `libparopt*` files into `prefix/lib`, then `popd`.
`metis_dir` is the `METIS_DIR` environment value set by `install_metis`. -/
def install_paropt_from_src (o : Opts) (host : SysHost) (orc : StepOracle)
    (tmpdir : FPath) (metis_dir : String) (s : BuildState) : BResult := do
  let s ← git_clone .paropt tmpdir orc.git s
  let s ← fs_rename (s.cwd ++ ["Makefile.in.info"]) (s.cwd ++ ["Makefile.in"]) s
  let make_vars := ["PAROPT_DIR=" ++ pathStr s.cwd]
    ++ (if host.sys_name = "Darwin" then
        ["SO_EXT=dylib", "SO_LINK_FLAGS=-fPIC -dynamiclib -undefined dynamic_lookup",
         "METIS_INCLUDE=-I" ++ metis_dir ++ "/include/",
         "METIS_LIB=-L" ++ metis_dir ++ "/lib/", "-lmetis"]
      else
        ["SO_EXT=so", "SO_LINK_FLAGS=-fPIC -shared",
         "METIS_INCLUDE=-I" ++ metis_dir ++ "/include/",
         "METIS_LIB=-L" ++ metis_dir ++ "/lib/", "-lmetis"])
  let s ← make_install o.make_name host.compile_cores none (some make_vars)
    false orc.make_ok orc.install_ok s
  let s ← runCommand orc.pip_ok (pip_install_cmd o.pip_cmd o.verbose ["./"]) s
  let s := copyAllInto (o.pfx ++ ["lib"])
    (globIn s.fs (s.cwd ++ ["lib"]) "libparopt*") s
  popd s

/-- A member of the HSL source tar archive. -/
structure TarEntry where
  path : FPath
  is_dir : Bool
  deriving Repr, DecidableEq

/-- The archive member list, in order. -/
abbrev Archive := List TarEntry

/-- `tf.getnames()`. -/
def tar_getnames (a : Archive) : List FPath :=
  a.map (·.path)

/-- `tar xf`: every member appears under the extraction directory. -/
def extractInto (fs : FS) (cwd : FPath) : Archive → FS
  | [] => fs
  | e :: rest =>
    extractInto
      (if e.is_dir then { fs with dirs := fs.dirs ++ [cwd ++ e.path] }
       else { fs with files := fs.files ++ [cwd ++ e.path] })
      cwd rest

/-- The part of `install_hsl_from_src()` that runs before the configure
step: clone the HSL build wrapper, read the archive's top-level directory
name from the first entry of `tf.getnames()` (`IndexError` on an empty
archive), extract the archive into the build directory, and rename that
top-level directory to `coinhsl`. -/
def hsl_unpack_phase (o : Opts) (orc : StepOracle) (tmpdir : FPath)
    (archive : Archive) (s : BuildState) : BResult := do
  let s ← git_clone .hsl tmpdir orc.git s
  match tar_getnames archive with
  | [] => .error (.indexError, s)
  | hsl_dir_name :: _ => do
    let tar_file := pyStr (o.hsl_tar_file.map pathStr)
    let s ←
      if orc.pre_ok then
        .ok (blog { s with fs := extractInto s.fs s.cwd archive }
          (.runCmd ["tar", "xf", tar_file]))
      else .error (.calledProcessError ["tar", "xf", tar_file], s)
    fs_rename (s.cwd ++ hsl_dir_name) (s.cwd ++ ["coinhsl"]) s

/-- `install_hsl_from_src()`: when the build is allowed, unpack (clone,
extract, rename to `coinhsl`), then configure with the common solver flags,
make and install (default parallelism), then `popd`. -/
def install_hsl_from_src (o : Opts) (host : SysHost) (orc : StepOracle)
    (tmpdir : FPath) (archive : Archive) (s : BuildState) : BResult :=
  match allow_build s.fs o.force_build o.pfx .hsl with
  | none => .error (.keyError, s)
  | some false => .ok s
  | some true => do
    let s ← hsl_unpack_phase o orc tmpdir archive s
    let s ← runCommand orc.configure_ok (get_common_solver_config_cmd o host s.fs) s
    let s ← make_install o.make_name host.compile_cores none none true
      orc.make_ok orc.install_ok s
    popd s

/-- The `-j` values of the make invocations in a trace. -/
def traceJ (tr : List BuildAction) : List Nat :=
  tr.filterMap fun a =>
    match a with
    | .makeWithJ j => some j
    | _ => none

/-! ## Conda installs with fallback (`try_fallback`, `install_metis`) -/

/-- `try_fallback(pkg, e)`: when the fall-back option is set, print and
return normally; otherwise re-raise the caught exception `e`. -/
def try_fallback (fall_back : Bool) (e : PyExc) : Except PyExc Unit :=
  if fall_back then .ok () else .error e

/-- Which installation route `install_metis` ended up taking. -/
inductive InstallMethod
  | condaPkg
  | sourceBuildInvoked
  deriving Repr, DecidableEq

/-- `install_metis()`: when conda installation is allowed and no rebuild is
forced, try `install_conda_pkg('metis')` (success/failure given by
`conda_ok`, `e` being the exception caught on failure) and return on
success; on failure consult `try_fallback`, and when it returns normally
fall through to `install_metis_from_src()`.  Outside the conda path, build
from source directly.  (`install_mumps` and `install_ipopt` share this exact
control flow.) -/
def install_metis (allow_conda : Bool) (o : Opts) (conda_ok : Bool)
    (e : PyExc) : Except PyExc InstallMethod :=
  if allow_conda && o.force_build = false then
    if conda_ok then .ok .condaPkg
    else
      match try_fallback o.fall_back e with
      | .ok _ => .ok .sourceBuildInvoked
      | .error e2 => .error e2
  else .ok .sourceBuildInvoked

/-! ## `check_sanity` -/

/-- The error messages `check_sanity` can accumulate. -/
inductive CheckErr
  | missingCmd (c : String)
  | hslTarMissing (p : FPath)
  | paroptVersionTooOld
  | snoptDirMissing (p : FPath)
  deriving Repr, DecidableEq

/-- Environment state consulted by `check_sanity`: the commands `which` can
find, the `MAKE` variable, the compiler command names set by
`finish_setup()`, and the existence of the user-supplied paths. -/
structure CheckEnv where
  path_cmds : List String
  env_MAKE : Option String := none
  cc : String := "gcc"
  cxx : String := "g++"
  fc : String := "gfortran"
  hsl_tar_is_file : Bool := false
  snopt_dir_is_dir : Bool := false
  deriving Repr, DecidableEq

/-- `shutil.which(cmd) is not None`. -/
def which (env : CheckEnv) (c : String) : Bool := env.path_cmds.contains c

/-- The make command name after `check_make`: `$MAKE` if set, else `gmake`
when found, else the default `make`. -/
def sanity_make_name (env : CheckEnv) (o : Opts) : String :=
  match env.env_MAKE with
  | some m => m
  | none => if which env "gmake" then "gmake" else o.make_name

/-- The `required_cmds` list assembled by `check_sanity` (everything checked
by the `for cmd in required_cmds` loop; the make command is checked
separately inside `check_make`). -/
def sanity_loop_cmds (o : Opts) (env : CheckEnv) : List String :=
  (if o.compile_required || o.fall_back then
    ["git", env.cc, env.cxx, env.fc]
      ++ (if o.build_pyoptsparse then ["swig"] else [])
  else [])
  ++ (if o.compile_required = false then [o.conda_cmd] else [])
  ++ (match o.hsl_tar_file with | some _ => ["tar"] | none => [])
  ++ (if o.include_paropt then ["mpicxx"] else [])

/-- Every command `check_sanity` requires on the path (the make command when
a compile may happen, plus the loop commands). -/
def sanity_required_cmds (o : Opts) (env : CheckEnv) : List String :=
  (if o.compile_required || o.fall_back then [sanity_make_name env o] else [])
    ++ sanity_loop_cmds o env

/-- The outcome of `check_sanity`: the accumulated error list, whether
`exit(1)` was reached, and whether the compiler/library link tests were
run. -/
structure SanityOutcome where
  errors : List CheckErr
  exited : Bool
  ran_compile_checks : Bool
  deriving Repr, DecidableEq

/-- The error `check_make` can append: the chosen make command missing from
the path (only checked when a compile may happen). -/
def sanity_make_errors (o : Opts) (env : CheckEnv) : List CheckErr :=
  if o.compile_required || o.fall_back then
    (if which env (sanity_make_name env o) then [] else
      [.missingCmd (sanity_make_name env o)])
  else []

/-- The missing-user-input errors, in source order: nonexistent HSL tar
file, unsupported pyOptSparse version for ParOpt, nonexistent SNOPT
directory. -/
def sanity_input_errors (o : Opts) (env : CheckEnv) : List CheckErr :=
  (match o.hsl_tar_file with
   | some t => if env.hsl_tar_is_file then [] else [.hslTarMissing t]
   | none => [])
  ++ (if o.include_paropt && verLt o.pyoptsparse_version (2, 1, 2) then
      [.paroptVersionTooOld] else [])
  ++ (match o.snopt_dir with
      | some dsn => if env.snopt_dir_is_dir then [] else [.snoptDirMissing dsn]
      | none => [])

/-- The errors appended by the `for cmd in required_cmds:
find_required_command(cmd, errors)` loop. -/
def sanity_cmd_errors (o : Opts) (env : CheckEnv) : List CheckErr :=
  (sanity_loop_cmds o env).filterMap
    (fun c => if which env c then none else some (.missingCmd c))

/-- The full `errors` list at the `if len(errors) > 0` test, in the order the
source appends: make error, user-input errors, command-loop errors. -/
def sanity_errors (o : Opts) (env : CheckEnv) : List CheckErr :=
  sanity_make_errors o env ++ sanity_input_errors o env ++ sanity_cmd_errors o env

/-- `check_sanity()`: accumulate every error, print them all and `exit(1)`
iff the list is non-empty; otherwise proceed, running the compiler and
library link tests exactly when a compile may be needed. -/
def check_sanity (o : Opts) (env : CheckEnv) : SanityOutcome :=
  if (sanity_errors o env).length > 0 then
    { errors := sanity_errors o env, exited := true, ran_compile_checks := false }
  else
    { errors := sanity_errors o env, exited := false,
      ran_compile_checks := o.compile_required || o.fall_back }

/-! ## SNOPT source-file selection

Three places in the repository select SNOPT Fortran files:
`copy_snopt_files` in `build_pyoptsparse.py`, `copy_snopt_source` in
`build_pyoptsparse/snopt_module.py`, and the module-level loop of
`build_pyoptsparse/grab-all-fortran-files.py`. -/

/-- `re.compile('.*snopth.f').match(s)` semantics: the regex `match` anchors
at the start, the leading `.*` lets the rest begin anywhere, `.` matches any
character except a newline.  So: some position starts with `snopth`, then
any non-newline character, then `f`. -/
def matchesSnopthPattern : List Char → Bool
  | [] => false
  | c :: rest =>
    ("snopth".data.isPrefixOf (c :: rest)
      && (match (c :: rest).drop 6 with
          | d :: 'f' :: _ => d ≠ '\n'
          | _ => false))
    || matchesSnopthPattern rest

/-- `copy_snopt_files(build_dirname)`: the files it copies, given the parent
directory of `snoptc.f` — every directory entry matching `*` whose full path
string does not match `.*snopth.f` and which is not itself a directory. -/
def copy_snopt_files_selected (fs : FS) (parent : FPath) : List FPath :=
  (globIn fs parent "*").filter
    (fun p => !(matchesSnopthPattern (pathStr p).data) && !(fs.is_dir p))

/-- The `EXCLUDE_FILES` list of `copy_snopt_source` in `snopt_module.py`:
always `snopth.f`; when `sn27lu.f` is present also the other two `sn27lu`
variants; when (only) `sn27lu90.f` is present, the other two variants. -/
def snopt_exclude_files (f_file_names : List String) : List String :=
  let ex := ["snopth.f"]
  if f_file_names.contains "sn27lu.f" then ex ++ ["sn27lu77.f", "sn27lu90.f"]
  else if f_file_names.contains "sn27lu90.f" then ex ++ ["sn27lu.f", "sn27lu77.f"]
  else ex

/-- `copy_snopt_source(source_dir, dest_dir)`: the `(copied, skipped)` split
of the `*.f` directory listing against `EXCLUDE_FILES`. -/
def copy_snopt_source (f_file_names : List String) : List String × List String :=
  (f_file_names.filter (fun n => !((snopt_exclude_files f_file_names).contains n)),
   f_file_names.filter (fun n => (snopt_exclude_files f_file_names).contains n))

/-- A `pathlib.Path` value (as produced by `Path(...).glob(...)`),
distinguished from `str` because Python equality is type-sensitive. -/
structure PyPath where
  s : String
  deriving Repr, DecidableEq

/-- Python `str == Path`: `str.__eq__` and `Path.__eq__` both return
`NotImplemented` for the other type, so the comparison is always `False`. -/
def pyEqStrPath (_v : String) (_p : PyPath) : Bool := false

/-- Python `"name" in list_of_Path_objects`: membership tests each element
with `==`, which is always `False` across `str`/`Path`. -/
def strInPathList (v : String) (l : List PyPath) : Bool :=
  l.any (pyEqStrPath v)

/-- `os.path.basename(path)`: the part after the last `/`. -/
def pyBasename (p : PyPath) : String :=
  String.mk ((splitOnCharL '/' p.s.data).getLastD [])

/-- The `TO_SKIP` list of `grab-all-fortran-files.py` after its two
membership tests (`"sn27lu.f" in all_source_files`, then
`"sn27lu90.f" in all_source_files`, both against a list of `Path` objects;
note the second branch appends only `sn27lu77.f`). -/
def grab_to_skip (all_source_files : List PyPath) : List String :=
  let to_skip := ["snopth.f"]
  if strInPathList "sn27lu.f" all_source_files then
    to_skip ++ ["sn27lu77.f", "sn27lu90.f"]
  else if strInPathList "sn27lu90.f" all_source_files then
    to_skip ++ ["sn27lu77.f"]
  else to_skip

/-- The paths printed by the final loop of `grab-all-fortran-files.py`:
those whose basename is not in `TO_SKIP`. -/
def grab_printed (all_source_files : List PyPath) : List PyPath :=
  all_source_files.filter
    (fun p => !((grab_to_skip all_source_files).contains (pyBasename p)))

/-! ## Result projections and concrete inputs used by witnesses -/

/-- Did the pipeline step complete without an exception? -/
def isOkB : BResult → Bool
  | .ok _ => true
  | .error _ => false

/-- The directory stack at the end of a step, or at the raise point. -/
def resultStack : BResult → List FPath
  | .ok s => s.dir_stack
  | .error (_, s) => s.dir_stack

/-- The working directory at the end of a step, or at the raise point. -/
def resultCwd : BResult → FPath
  | .ok s => s.cwd
  | .error (_, s) => s.cwd

/-- Did the uninstall mode complete without an exception? -/
def isOkU : Except PyExc (FS × Nat) → Bool
  | .ok _ => true
  | .error _ => false

/-- A starting process state on an empty filesystem. -/
def startState : BuildState :=
  { cwd := ["start"], dir_stack := [], fs := ⟨[], []⟩, trace := [] }

/-- An oracle where only the configure step fails. -/
def configFailOracle : StepOracle := { configure_ok := false }

/-- An 8-core host probed with GNU compilers. -/
def host8 : SysHost := { compile_cores := init_compile_cores 8 }

/-- A prefix state where a directory name matches the ParOpt library glob
under `prefix/lib`. -/
def c7badfs : FS := { files := [], dirs := [["p", "lib", "libparopt.d"]] }

/-- A typical installed layout: METIS marker header and library, all glob
matches regular files. -/
def c7fs : FS :=
  { files := [["p", "lib", "libcoinmetis.a"],
              ["p", "include", "coin-or", "metis", "metis.h"]]
    dirs := [["p", "include", "coin-or"], ["p", "include", "coin-or", "metis"],
             ["p", "lib"]] }

/-- The `Path` objects of a SNOPT source directory listing containing both
`sn27lu.f` and `sn27lu90.f` (what `Path(CURDIR).glob("*.f")` yields in
`grab-all-fortran-files.py`). -/
def c9paths : List PyPath :=
  [⟨"/sdir/snoptc.f"⟩, ⟨"/sdir/snopth.f"⟩, ⟨"/sdir/sn27lu.f"⟩,
   ⟨"/sdir/sn27lu77.f"⟩, ⟨"/sdir/sn27lu90.f"⟩]

/-- The same listing as bare file names (what `copy_snopt_source` in
`snopt_module.py` works with). -/
def c9names : List String :=
  ["snoptc.f", "snopth.f", "sn27lu.f", "sn27lu77.f", "sn27lu90.f"]

/-- The same SNOPT source directory as a filesystem (what
`copy_snopt_files` in `build_pyoptsparse.py` works with), including an
`f2py` subdirectory. -/
def c9fs : FS :=
  { files := [["", "sdir", "snoptc.f"], ["", "sdir", "snopth.f"],
              ["", "sdir", "sn27lu.f"], ["", "sdir", "sn27lu77.f"],
              ["", "sdir", "sn27lu90.f"]]
    dirs := [["", "sdir", "f2py"]] }

/-- Concrete filesystem for the C1 witness: METIS marker installed under the
`coin-or` include directory. -/
def c1fs : FS :=
  { files := [["p", "include", "coin-or", "metis", "metis.h"]]
    dirs := [["p", "include", "coin-or"]] }

/-- Concrete arguments for the C3 witness. -/
def c3args : Args := {}

/-- Concrete environment for the C3 witness: conda active, probe output
containing the conda-forge channel. -/
def c3env : CondaEnv :=
  { conda_active := true, mamba_found := false
    conda_info_output := "https://conda.anaconda.org/conda-forge" }

/-- Concrete archive for the C8 witness: top-level directory
`coinhsl-2014.01.17` containing one source file. -/
def c8archive : Archive :=
  [⟨["coinhsl-2014.01.17"], true⟩, ⟨["coinhsl-2014.01.17", "ma27d.f"], false⟩]

/-- Concrete options for the C8 witness: the HSL tar-file option is set. -/
def c8opts : Opts := { hsl_tar_file := some ["downloads", "coinhsl.tar.gz"] }

/-- Environment for the C5 witness: only `gmake` and `swig` are on the path;
git and the compilers are missing, the HSL tar file does not exist. -/
def c5env : CheckEnv := { path_cmds := ["gmake", "swig"] }

/-- Options for the C5 witness: defaults with an HSL tar file supplied. -/
def c5opts : Opts := { hsl_tar_file := some ["hsl.tar.gz"] }

/-! ## Theorems for claims C1, C3, C10 -/

/-- C1: for every dependency with a marker header entry, when the coin include
directory exists under the prefix, `allow_build` returns true iff `force_build`
is set or the marker header file is absent; with `force_build` set it returns
true regardless of marker presence, and with `force_build` unset and the
marker present it returns false. -/
theorem claim1_allow_build_marker (fs : FS) (force : Bool) (pfx : FPath)
    (key : DepKey) (coin_dir mp : FPath)
    (hcoin : get_coin_inc_dir fs pfx = some coin_dir)
    (hmp : marker_path coin_dir (build_info key) = some mp) :
    allow_build fs force pfx key = some (force || !(fs.is_file mp))
    ∧ (force = true → allow_build fs force pfx key = some true)
    ∧ (force = false → fs.is_file mp = true →
        allow_build fs force pfx key = some false) := by
  have h1 : allow_build fs force pfx key = some (force || !(fs.is_file mp)) := by
    simp [allow_build, hcoin, hmp]
  refine ⟨h1, ?_, ?_⟩
  · intro hf; rw [h1, hf]; rfl
  · intro hf hm; rw [h1, hf, hm]; rfl

/-- Witness for C1 at a concrete input: marker present, `force_build` unset,
so the build is skipped. -/
theorem claim1_witness :
    allow_build c1fs false ["p"] .metis = some false :=
  (claim1_allow_build_marker c1fs false ["p"] .metis
    ["p", "include", "coin-or"]
    ["p", "include", "coin-or", "metis", "metis.h"]
    (by decide) (by decide)).2.2 rfl (by decide)

/-- C3: after `process_command_line` (in a non-uninstall run, the only mode
that probes), `allow_install_with_conda` is true iff conda is active, the user
did not pass `--ignore-conda`, and the probe output matched `conda.*forge`;
in particular it is false when conda is inactive, and false when the probe
output lacked the channel name, regardless of environment state. -/
theorem claim3_allow_install_with_conda (args : Args) (env : CondaEnv)
    (hu : args.uninstall = false) :
    (allow_install_with_conda env (process_command_line args env).1
        (process_command_line args env).2
      = (conda_is_active env && !args.ignore_conda
          && re_search_conda_forge env.conda_info_output))
    ∧ (conda_is_active env = false →
        allow_install_with_conda env (process_command_line args env).1
          (process_command_line args env).2 = false)
    ∧ (re_search_conda_forge env.conda_info_output = false →
        allow_install_with_conda env (process_command_line args env).1
          (process_command_line args env).2 = false) := by
  cases hca : env.conda_active <;>
    cases hic : args.ignore_conda <;>
      cases hrf : re_search_conda_forge env.conda_info_output <;>
        simp [process_command_line, allow_install_with_conda, conda_is_active,
          hu, hca, hic, hrf]

/-- Witness for C3 at a concrete input: conda active, not ignored, channel
found, so conda installs are allowed. -/
theorem claim3_witness :
    allow_install_with_conda c3env (process_command_line c3args c3env).1
      (process_command_line c3args c3env).2 = true :=
  ((claim3_allow_install_with_conda c3args c3env rfl).1).trans (by decide)

/-- C10: after `process_command_line`, the Intel-compiler-suite option is
true when the linear solver is pardiso, regardless of `--intel`, and equals
the `--intel` flag for every other solver choice (together: it equals
`linear_solver = pardiso || intel`). -/
theorem claim10_pardiso_forces_intel (args : Args) (env : CondaEnv) :
    (process_command_line args env).1.intel_compiler_suite
      = (decide (args.linear_solver = .pardiso) || args.intel) := by
  cases hls : args.linear_solver <;>
    simp [process_command_line, hls]

/-! ## Success-path computations of the pipeline steps (helper lemmas) -/

/-- When every external command succeeds and the build is allowed, the METIS
step computes to this explicit final state: cwd and directory stack
restored, filesystem unchanged, make invoked once with the default
parallelism. -/
theorem metis_src_ok (o : Opts) (host : SysHost) (orc : StepOracle)
    (tmpdir : FPath) (s : BuildState)
    (hall : allow_build s.fs o.force_build o.pfx .metis = some true)
    (h1 : orc.git.clone_ok = true) (h2 : orc.git.config_ok = true)
    (h3 : orc.git.checkout_ok = true) (h4 : orc.pre_ok = true)
    (h5 : orc.configure_ok = true) (h6 : orc.make_ok = true)
    (h7 : orc.install_ok = true) :
    install_metis_from_src o host orc tmpdir s = .ok
      { cwd := s.cwd, dir_stack := s.dir_stack, fs := s.fs,
        trace := s.trace ++
          [.runCmd ["git", "clone", "-q", (build_info .metis).url, pathStr tmpdir],
           .runCmd ["git", "config", "--local", "advice.detachedHead", "false"],
           .runCmd ["git", "checkout", "-q", (build_info .metis).branch],
           .runCmd ["./get.Metis"],
           .runCmd ["./configure", "--prefix=" ++ pathStr o.pfx],
           .makeWithJ host.compile_cores,
           .runCmd [o.make_name],
           .runCmd [o.make_name, "install"]] } := by
  simp [install_metis_from_src, hall, git_clone, runCommand, pushd, blog,
    build_info, make_install, popd, h1, h2, h3, h4, h5, h6, h7,
    bind, Except.bind, List.getLast?_concat, List.dropLast_concat,
    List.append_assoc]

/-- When every external command succeeds and the build is allowed, the MUMPS
step completes, restoring cwd and directory stack, and invoking make with
parallelism 1. -/
theorem mumps_src_ok (o : Opts) (host : SysHost) (orc : StepOracle)
    (tmpdir : FPath) (s : BuildState)
    (hall : allow_build s.fs o.force_build o.pfx .mumps = some true)
    (h1 : orc.git.clone_ok = true) (h2 : orc.git.config_ok = true)
    (h3 : orc.git.checkout_ok = true) (h4 : orc.pre_ok = true)
    (h5 : orc.configure_ok = true) (h6 : orc.make_ok = true)
    (h7 : orc.install_ok = true) :
    install_mumps_from_src o host orc tmpdir s = .ok
      { cwd := s.cwd, dir_stack := s.dir_stack, fs := s.fs,
        trace := s.trace ++
          [.runCmd ["git", "clone", "-q", (build_info .mumps).url, pathStr tmpdir],
           .runCmd ["git", "config", "--local", "advice.detachedHead", "false"],
           .runCmd ["git", "checkout", "-q", (build_info .mumps).branch],
           .runCmd ["./get.Mumps"],
           .runCmd (get_common_solver_config_cmd o host s.fs),
           .makeWithJ 1,
           .runCmd [o.make_name],
           .runCmd [o.make_name, "install"]] } := by
  simp [install_mumps_from_src, hall, git_clone, runCommand, pushd, blog,
    build_info, make_install, popd, h1, h2, h3, h4, h5, h6, h7,
    bind, Except.bind, List.getLast?_concat, List.dropLast_concat,
    List.append_assoc]

/-- When every external command succeeds, the build is allowed and IPOPT is
included, the IPOPT step completes, restoring cwd and directory stack, and
invoking make with the default parallelism. -/
theorem ipopt_src_ok (o : Opts) (host : SysHost) (orc : StepOracle)
    (tmpdir : FPath) (config_opts : Option (List String)) (s : BuildState)
    (hall : allow_build s.fs o.force_build o.pfx .ipopt = some true)
    (hinc : o.include_ipopt = true)
    (h1 : orc.git.clone_ok = true) (h2 : orc.git.config_ok = true)
    (h3 : orc.git.checkout_ok = true)
    (h5 : orc.configure_ok = true) (h6 : orc.make_ok = true)
    (h7 : orc.install_ok = true) :
    install_ipopt_from_src o host orc tmpdir config_opts s = .ok
      { cwd := s.cwd, dir_stack := s.dir_stack, fs := s.fs,
        trace := s.trace ++
          [.runCmd ["git", "clone", "-q", (build_info .ipopt).url, pathStr tmpdir],
           .runCmd ["git", "config", "--local", "advice.detachedHead", "false"],
           .runCmd ["git", "checkout", "-q", (build_info .ipopt).branch],
           .runCmd (["./configure", "--prefix=" ++ pathStr o.pfx, "--disable-java"]
             ++ (if o.linear_solver ≠ .pardiso then ["--disable-pardisomkl"] else [])
             ++ config_opts.getD []),
           .makeWithJ host.compile_cores,
           .runCmd [o.make_name],
           .runCmd [o.make_name, "install"]] } := by
  simp [install_ipopt_from_src, hall, hinc, git_clone, runCommand, pushd, blog,
    build_info, make_install, popd, h1, h2, h3, h5, h6, h7,
    bind, Except.bind, List.getLast?_concat, List.dropLast_concat,
    List.append_assoc]

/-- The library-copy loop never changes the working directory. -/
theorem copyAllInto_cwd (d : FPath) :
    ∀ (l : List FPath) (s : BuildState), (copyAllInto d l s).cwd = s.cwd := by
  intro l
  induction l with
  | nil => intro s; rfl
  | cons p rest ih => intro s; simp [copyAllInto, ih, blog]

/-- The library-copy loop never changes the directory stack. -/
theorem copyAllInto_dir_stack (d : FPath) :
    ∀ (l : List FPath) (s : BuildState),
      (copyAllInto d l s).dir_stack = s.dir_stack := by
  intro l
  induction l with
  | nil => intro s; rfl
  | cons p rest ih => intro s; simp [copyAllInto, ih, blog]

/-- The library-copy loop adds only `copyFile` actions, so the make
invocations of the trace are unchanged. -/
theorem copyAllInto_traceJ (d : FPath) :
    ∀ (l : List FPath) (s : BuildState),
      traceJ (copyAllInto d l s).trace = traceJ s.trace := by
  intro l
  induction l with
  | nil => intro s; rfl
  | cons p rest ih =>
    intro s
    rw [copyAllInto, ih]
    simp [blog, traceJ, List.filterMap_append]

/-- `popd` after the copy loop restores the directory under the pushed
entry. -/
theorem popd_copyAll (d : FPath) (l : List FPath) (s : BuildState)
    (t : List FPath) (c : FPath) (hs : s.dir_stack = t ++ [c]) :
    popd (copyAllInto d l s) = .ok
      { cwd := c, dir_stack := t, fs := (copyAllInto d l s).fs,
        trace := (copyAllInto d l s).trace } := by
  unfold popd
  rw [copyAllInto_dir_stack, hs]
  simp [List.getLast?_concat, List.dropLast_concat]

/-- When every external command succeeds and the cloned ParOpt tree provides
`Makefile.in.info`, the ParOpt step completes, restoring cwd and directory
stack, and invoking make with the default parallelism. -/
theorem paropt_src_ok (o : Opts) (host : SysHost) (orc : StepOracle)
    (tmpdir : FPath) (metis_dir : String) (s : BuildState)
    (h1 : orc.git.clone_ok = true) (h2 : orc.git.config_ok = true)
    (h3 : orc.git.checkout_ok = true)
    (h6 : orc.make_ok = true) (h8 : orc.pip_ok = true)
    (hmk : s.fs.is_file (tmpdir ++ ["Makefile.in.info"]) = true) :
    ∃ s2, install_paropt_from_src o host orc tmpdir metis_dir s = .ok s2
      ∧ s2.cwd = s.cwd ∧ s2.dir_stack = s.dir_stack
      ∧ traceJ s2.trace = traceJ s.trace ++ [host.compile_cores] := by
  have hmain : install_paropt_from_src o host orc tmpdir metis_dir s
      = popd (copyAllInto (o.pfx ++ ["lib"])
          (globIn (s.fs.renameTree (tmpdir ++ ["Makefile.in.info"])
              (tmpdir ++ ["Makefile.in"])) (tmpdir ++ ["lib"]) "libparopt*")
          { cwd := tmpdir, dir_stack := s.dir_stack ++ [s.cwd],
            fs := s.fs.renameTree (tmpdir ++ ["Makefile.in.info"])
              (tmpdir ++ ["Makefile.in"]),
            trace := s.trace ++
              [.runCmd ["git", "clone", "-q", (build_info .paropt).url, pathStr tmpdir],
               .runCmd ["git", "config", "--local", "advice.detachedHead", "false"],
               .runCmd ["git", "checkout", "-q", (build_info .paropt).branch],
               .renamePath (tmpdir ++ ["Makefile.in.info"]) (tmpdir ++ ["Makefile.in"]),
               .makeWithJ host.compile_cores,
               .runCmd ([o.make_name] ++ (["PAROPT_DIR=" ++ pathStr tmpdir]
                 ++ (if host.sys_name = "Darwin" then
                     ["SO_EXT=dylib",
                      "SO_LINK_FLAGS=-fPIC -dynamiclib -undefined dynamic_lookup",
                      "METIS_INCLUDE=-I" ++ metis_dir ++ "/include/",
                      "METIS_LIB=-L" ++ metis_dir ++ "/lib/", "-lmetis"]
                   else
                     ["SO_EXT=so", "SO_LINK_FLAGS=-fPIC -shared",
                      "METIS_INCLUDE=-I" ++ metis_dir ++ "/include/",
                      "METIS_LIB=-L" ++ metis_dir ++ "/lib/", "-lmetis"]))),
               .runCmd (pip_install_cmd o.pip_cmd o.verbose ["./"])] }) := by
    simp [install_paropt_from_src, git_clone, runCommand, pushd, blog,
      build_info, fs_rename, hmk, make_install, h1, h2, h3, h6, h8,
      bind, Except.bind, pure, Except.pure, List.append_assoc]
  rw [hmain, popd_copyAll _ _ _ s.dir_stack s.cwd rfl]
  refine ⟨_, rfl, rfl, rfl, ?_⟩
  rw [copyAllInto_traceJ]
  simp [traceJ, List.filterMap_append]

/-- Extraction only adds directory entries. -/
theorem extractInto_dirs_mono (cwd : FPath) :
    ∀ (a : Archive) (fs : FS) (p : FPath),
      p ∈ fs.dirs → p ∈ (extractInto fs cwd a).dirs := by
  intro a
  induction a with
  | nil => intro fs p h; exact h
  | cons e rest ih =>
    intro fs p h
    by_cases hd : e.is_dir
    · exact ih _ p (by simp [hd, List.mem_append]; exact Or.inl h)
    · exact ih _ p (by simp [hd]; exact h)

/-- Extraction only adds file entries. -/
theorem extractInto_files_mono (cwd : FPath) :
    ∀ (a : Archive) (fs : FS) (p : FPath),
      p ∈ fs.files → p ∈ (extractInto fs cwd a).files := by
  intro a
  induction a with
  | nil => intro fs p h; exact h
  | cons e rest ih =>
    intro fs p h
    by_cases hd : e.is_dir
    · exact ih _ p (by simp [hd]; exact h)
    · exact ih _ p (by simp [hd, List.mem_append]; exact Or.inl h)

/-- Every archive member exists (as directory or file) after extraction. -/
theorem extractInto_mem_entry (cwd : FPath) :
    ∀ (a : Archive) (fs : FS) (e : TarEntry), e ∈ a →
      (cwd ++ e.path) ∈ (extractInto fs cwd a).dirs
        ∨ (cwd ++ e.path) ∈ (extractInto fs cwd a).files := by
  intro a
  induction a with
  | nil => intro fs e h; simp at h
  | cons e2 rest ih =>
    intro fs e h
    rcases List.mem_cons.mp h with rfl | h2
    · rw [extractInto]
      by_cases hd : e.is_dir
      · rw [if_pos hd]
        exact Or.inl (extractInto_dirs_mono cwd rest _ _ (by simp))
      · rw [if_neg hd]
        exact Or.inr (extractInto_files_mono cwd rest _ _ (by simp))
    · rw [extractInto]
      exact ih _ e h2

/-- When the git commands and the extraction succeed, the HSL unpack phase
(everything `install_hsl_from_src` runs before configure) computes to this
state: inside the build directory, with the archive extracted and its
top-level entry renamed to `coinhsl`. -/
theorem hsl_unpack_ok (o : Opts) (orc : StepOracle) (tmpdir : FPath)
    (e : TarEntry) (rest : Archive) (s : BuildState)
    (h1 : orc.git.clone_ok = true) (h2 : orc.git.config_ok = true)
    (h3 : orc.git.checkout_ok = true) (h4 : orc.pre_ok = true) :
    hsl_unpack_phase o orc tmpdir (e :: rest) s = .ok
      { cwd := tmpdir, dir_stack := s.dir_stack ++ [s.cwd],
        fs := (extractInto s.fs tmpdir (e :: rest)).renameTree
          (tmpdir ++ e.path) (tmpdir ++ ["coinhsl"]),
        trace := s.trace ++
          [.runCmd ["git", "clone", "-q", (build_info .hsl).url, pathStr tmpdir],
           .runCmd ["git", "config", "--local", "advice.detachedHead", "false"],
           .runCmd ["git", "checkout", "-q", (build_info .hsl).branch],
           .runCmd ["tar", "xf", pyStr (o.hsl_tar_file.map pathStr)],
           .renamePath (tmpdir ++ e.path) (tmpdir ++ ["coinhsl"])] } := by
  have hcond : ((extractInto s.fs tmpdir (e :: rest)).is_dir (tmpdir ++ e.path)
      || (extractInto s.fs tmpdir (e :: rest)).is_file (tmpdir ++ e.path)) = true := by
    rcases extractInto_mem_entry tmpdir (e :: rest) s.fs e (by simp) with hm | hm
    · have hb : (extractInto s.fs tmpdir (e :: rest)).is_dir (tmpdir ++ e.path) = true :=
        List.elem_eq_true_of_mem hm
      simp [hb]
    · have hb : (extractInto s.fs tmpdir (e :: rest)).is_file (tmpdir ++ e.path) = true :=
        List.elem_eq_true_of_mem hm
      simp [hb]
  simp [hsl_unpack_phase, tar_getnames, git_clone, runCommand, pushd, blog,
    build_info, fs_rename, hcond, h1, h2, h3, h4,
    bind, Except.bind, pure, Except.pure, List.append_assoc]

/-- When every external command succeeds, the build is allowed and the
archive is non-empty, the HSL step completes, restoring cwd and directory
stack, and invoking make with the default parallelism. -/
theorem hsl_src_ok (o : Opts) (host : SysHost) (orc : StepOracle)
    (tmpdir : FPath) (e : TarEntry) (rest : Archive) (s : BuildState)
    (hall : allow_build s.fs o.force_build o.pfx .hsl = some true)
    (h1 : orc.git.clone_ok = true) (h2 : orc.git.config_ok = true)
    (h3 : orc.git.checkout_ok = true) (h4 : orc.pre_ok = true)
    (h5 : orc.configure_ok = true) (h6 : orc.make_ok = true)
    (h7 : orc.install_ok = true) :
    ∃ s2, install_hsl_from_src o host orc tmpdir (e :: rest) s = .ok s2
      ∧ s2.cwd = s.cwd ∧ s2.dir_stack = s.dir_stack
      ∧ traceJ s2.trace = traceJ s.trace ++ [host.compile_cores] := by
  have hun := hsl_unpack_ok o orc tmpdir e rest s h1 h2 h3 h4
  have hres : install_hsl_from_src o host orc tmpdir (e :: rest) s = .ok
      { cwd := s.cwd, dir_stack := s.dir_stack,
        fs := (extractInto s.fs tmpdir (e :: rest)).renameTree
          (tmpdir ++ e.path) (tmpdir ++ ["coinhsl"]),
        trace := s.trace ++
          [.runCmd ["git", "clone", "-q", (build_info .hsl).url, pathStr tmpdir],
           .runCmd ["git", "config", "--local", "advice.detachedHead", "false"],
           .runCmd ["git", "checkout", "-q", (build_info .hsl).branch],
           .runCmd ["tar", "xf", pyStr (o.hsl_tar_file.map pathStr)],
           .renamePath (tmpdir ++ e.path) (tmpdir ++ ["coinhsl"]),
           .runCmd (get_common_solver_config_cmd o host
             ((extractInto s.fs tmpdir (e :: rest)).renameTree
               (tmpdir ++ e.path) (tmpdir ++ ["coinhsl"]))),
           .makeWithJ host.compile_cores,
           .runCmd [o.make_name],
           .runCmd [o.make_name, "install"]] } := by
    simp [install_hsl_from_src, hall, hun, runCommand, blog, make_install,
      popd, h5, h6, h7, bind, Except.bind, pure, Except.pure,
      List.getLast?_concat, List.dropLast_concat, List.append_assoc]
  refine ⟨_, hres, rfl, rfl, ?_⟩
  simp [traceJ, List.filterMap_append]

/-! ## Claim C2: directory-stack balance -/

/-- C2 counterexample: with a failing configure step, `install_metis_from_src`
raises without running `popd`, so at the uncaught exception the directory
stack holds one more entry than before the call and the working directory is
still the build directory — the stack depth does not return to its pre-call
value when a step fails. -/
theorem claim2_counterexample :
    isOkB (install_metis_from_src {} host8 configFailOracle
      ["tmp", "metis"] startState) = false
    ∧ startState.dir_stack.length = 0
    ∧ (resultStack (install_metis_from_src {} host8 configFailOracle
        ["tmp", "metis"] startState)).length = 1
    ∧ startState.cwd = ["start"]
    ∧ resultCwd (install_metis_from_src {} host8 configFailOracle
        ["tmp", "metis"] startState) = ["tmp", "metis"] := by decide

/-- C2 (amended): each source-build pipeline step that completes without an
exception restores the directory stack and the working directory to their
pre-call values (when a step raises, its `popd` is skipped — see the
counterexample). -/
theorem claim2_stack_balance_on_success :
    (∀ (o : Opts) (host : SysHost) (orc : StepOracle) (tmpdir : FPath)
        (s : BuildState) (ab : Bool),
      allow_build s.fs o.force_build o.pfx .metis = some ab →
      orc.git.clone_ok = true → orc.git.config_ok = true →
      orc.git.checkout_ok = true → orc.pre_ok = true →
      orc.configure_ok = true → orc.make_ok = true → orc.install_ok = true →
      ∃ s2, install_metis_from_src o host orc tmpdir s = .ok s2
        ∧ s2.cwd = s.cwd ∧ s2.dir_stack = s.dir_stack)
    ∧ (∀ (o : Opts) (host : SysHost) (orc : StepOracle) (tmpdir : FPath)
        (s : BuildState) (ab : Bool),
      allow_build s.fs o.force_build o.pfx .mumps = some ab →
      orc.git.clone_ok = true → orc.git.config_ok = true →
      orc.git.checkout_ok = true → orc.pre_ok = true →
      orc.configure_ok = true → orc.make_ok = true → orc.install_ok = true →
      ∃ s2, install_mumps_from_src o host orc tmpdir s = .ok s2
        ∧ s2.cwd = s.cwd ∧ s2.dir_stack = s.dir_stack)
    ∧ (∀ (o : Opts) (host : SysHost) (orc : StepOracle) (tmpdir : FPath)
        (config_opts : Option (List String)) (s : BuildState) (ab : Bool),
      allow_build s.fs o.force_build o.pfx .ipopt = some ab →
      orc.git.clone_ok = true → orc.git.config_ok = true →
      orc.git.checkout_ok = true →
      orc.configure_ok = true → orc.make_ok = true → orc.install_ok = true →
      ∃ s2, install_ipopt_from_src o host orc tmpdir config_opts s = .ok s2
        ∧ s2.cwd = s.cwd ∧ s2.dir_stack = s.dir_stack)
    ∧ (∀ (o : Opts) (host : SysHost) (orc : StepOracle) (tmpdir : FPath)
        (e : TarEntry) (rest : Archive) (s : BuildState) (ab : Bool),
      allow_build s.fs o.force_build o.pfx .hsl = some ab →
      orc.git.clone_ok = true → orc.git.config_ok = true →
      orc.git.checkout_ok = true → orc.pre_ok = true →
      orc.configure_ok = true → orc.make_ok = true → orc.install_ok = true →
      ∃ s2, install_hsl_from_src o host orc tmpdir (e :: rest) s = .ok s2
        ∧ s2.cwd = s.cwd ∧ s2.dir_stack = s.dir_stack)
    ∧ (∀ (o : Opts) (host : SysHost) (orc : StepOracle) (tmpdir : FPath)
        (metis_dir : String) (s : BuildState),
      orc.git.clone_ok = true → orc.git.config_ok = true →
      orc.git.checkout_ok = true → orc.make_ok = true → orc.pip_ok = true →
      s.fs.is_file (tmpdir ++ ["Makefile.in.info"]) = true →
      ∃ s2, install_paropt_from_src o host orc tmpdir metis_dir s = .ok s2
        ∧ s2.cwd = s.cwd ∧ s2.dir_stack = s.dir_stack) := by
  refine ⟨?_, ?_, ?_, ?_, ?_⟩
  · intro o host orc tmpdir s ab hall h1 h2 h3 h4 h5 h6 h7
    cases ab with
    | false => exact ⟨s, by simp [install_metis_from_src, hall], rfl, rfl⟩
    | true =>
      exact ⟨_, metis_src_ok o host orc tmpdir s hall h1 h2 h3 h4 h5 h6 h7,
        rfl, rfl⟩
  · intro o host orc tmpdir s ab hall h1 h2 h3 h4 h5 h6 h7
    cases ab with
    | false => exact ⟨s, by simp [install_mumps_from_src, hall], rfl, rfl⟩
    | true =>
      exact ⟨_, mumps_src_ok o host orc tmpdir s hall h1 h2 h3 h4 h5 h6 h7,
        rfl, rfl⟩
  · intro o host orc tmpdir config_opts s ab hall h1 h2 h3 h5 h6 h7
    cases ab with
    | false => exact ⟨s, by simp [install_ipopt_from_src, hall], rfl, rfl⟩
    | true =>
      cases hinc : o.include_ipopt with
      | false => exact ⟨s, by simp [install_ipopt_from_src, hall, hinc], rfl, rfl⟩
      | true =>
        exact ⟨_, ipopt_src_ok o host orc tmpdir config_opts s hall hinc
          h1 h2 h3 h5 h6 h7, rfl, rfl⟩
  · intro o host orc tmpdir e rest s ab hall h1 h2 h3 h4 h5 h6 h7
    cases ab with
    | false => exact ⟨s, by simp [install_hsl_from_src, hall], rfl, rfl⟩
    | true =>
      obtain ⟨s2, hs2, hc, hd, _⟩ :=
        hsl_src_ok o host orc tmpdir e rest s hall h1 h2 h3 h4 h5 h6 h7
      exact ⟨s2, hs2, hc, hd⟩
  · intro o host orc tmpdir metis_dir s h1 h2 h3 h6 h8 hmk
    obtain ⟨s2, hs2, hc, hd, _⟩ :=
      paropt_src_ok o host orc tmpdir metis_dir s h1 h2 h3 h6 h8 hmk
    exact ⟨s2, hs2, hc, hd⟩

/-- Witness for the amended C2 at a concrete input: a successful METIS build
from `["start"]` ends back in `["start"]` with an empty stack. -/
theorem claim2_witness :
    ∃ s2, install_metis_from_src {} host8 {} ["tmp", "metis"] startState = .ok s2
      ∧ s2.cwd = ["start"] ∧ s2.dir_stack = [] := by
  obtain ⟨s2, h, hc, hd⟩ := claim2_stack_balance_on_success.1 {} host8 {}
    ["tmp", "metis"] startState true (by decide) rfl rfl rfl rfl rfl rfl rfl
  exact ⟨s2, h, hc, hd⟩

/-! ## Claim C4: conda-install failure handling -/

/-- C4: when a conda install of a dependency fails (shown on `install_metis`;
`install_mumps` and `install_ipopt` share the control flow): with the
fall-back option the failure is logged and the from-source build for that
dependency is invoked; without it `try_fallback` re-raises the caught
exception, which propagates. -/
theorem claim4_conda_fallback (o : Opts) (e : PyExc)
    (hforce : o.force_build = false) :
    (o.fall_back = true →
      install_metis true o false e = .ok .sourceBuildInvoked)
    ∧ (o.fall_back = false → install_metis true o false e = .error e) := by
  constructor
  · intro hf; simp [install_metis, try_fallback, hforce, hf]
  · intro hf; simp [install_metis, try_fallback, hforce, hf]

/-- Witness for C4 at concrete inputs: without `--fall-back` the exact
caught exception propagates; with it the source build is invoked. -/
theorem claim4_witness :
    install_metis true { fall_back := false } false
      (.calledProcessError ["conda", "install", "-q", "-y", "metis"])
      = .error (.calledProcessError ["conda", "install", "-q", "-y", "metis"])
    ∧ install_metis true { fall_back := true } false
      (.calledProcessError ["conda", "install", "-q", "-y", "metis"])
      = .ok .sourceBuildInvoked :=
  ⟨(claim4_conda_fallback { fall_back := false }
      (.calledProcessError ["conda", "install", "-q", "-y", "metis"]) rfl).2 rfl,
   (claim4_conda_fallback { fall_back := true }
      (.calledProcessError ["conda", "install", "-q", "-y", "metis"]) rfl).1 rfl⟩

/-! ## Claim C6: make parallelism -/

/-- C6: with `sys_info['compile_cores']` initialized to
`int(os.cpu_count()/2)`, every source-build step passes the default
parallelism — half the logical core count — to make, except the MUMPS step,
which always invokes `make_install` with parallelism 1. -/
theorem claim6_parallelism (ncpu : Nat) (host : SysHost)
    (hhost : host.compile_cores = init_compile_cores ncpu) :
    init_compile_cores ncpu = ncpu / 2
    ∧ (∀ (o : Opts) (orc : StepOracle) (tmpdir : FPath) (s : BuildState),
      allow_build s.fs o.force_build o.pfx .metis = some true →
      orc.git.clone_ok = true → orc.git.config_ok = true →
      orc.git.checkout_ok = true → orc.pre_ok = true →
      orc.configure_ok = true → orc.make_ok = true → orc.install_ok = true →
      ∃ s2, install_metis_from_src o host orc tmpdir s = .ok s2
        ∧ traceJ s2.trace = traceJ s.trace ++ [ncpu / 2])
    ∧ (∀ (o : Opts) (orc : StepOracle) (tmpdir : FPath) (s : BuildState),
      allow_build s.fs o.force_build o.pfx .mumps = some true →
      orc.git.clone_ok = true → orc.git.config_ok = true →
      orc.git.checkout_ok = true → orc.pre_ok = true →
      orc.configure_ok = true → orc.make_ok = true → orc.install_ok = true →
      ∃ s2, install_mumps_from_src o host orc tmpdir s = .ok s2
        ∧ traceJ s2.trace = traceJ s.trace ++ [1])
    ∧ (∀ (o : Opts) (orc : StepOracle) (tmpdir : FPath)
        (config_opts : Option (List String)) (s : BuildState),
      allow_build s.fs o.force_build o.pfx .ipopt = some true →
      o.include_ipopt = true →
      orc.git.clone_ok = true → orc.git.config_ok = true →
      orc.git.checkout_ok = true →
      orc.configure_ok = true → orc.make_ok = true → orc.install_ok = true →
      ∃ s2, install_ipopt_from_src o host orc tmpdir config_opts s = .ok s2
        ∧ traceJ s2.trace = traceJ s.trace ++ [ncpu / 2])
    ∧ (∀ (o : Opts) (orc : StepOracle) (tmpdir : FPath) (e : TarEntry)
        (rest : Archive) (s : BuildState),
      allow_build s.fs o.force_build o.pfx .hsl = some true →
      orc.git.clone_ok = true → orc.git.config_ok = true →
      orc.git.checkout_ok = true → orc.pre_ok = true →
      orc.configure_ok = true → orc.make_ok = true → orc.install_ok = true →
      ∃ s2, install_hsl_from_src o host orc tmpdir (e :: rest) s = .ok s2
        ∧ traceJ s2.trace = traceJ s.trace ++ [ncpu / 2])
    ∧ (∀ (o : Opts) (orc : StepOracle) (tmpdir : FPath) (metis_dir : String)
        (s : BuildState),
      orc.git.clone_ok = true → orc.git.config_ok = true →
      orc.git.checkout_ok = true → orc.make_ok = true → orc.pip_ok = true →
      s.fs.is_file (tmpdir ++ ["Makefile.in.info"]) = true →
      ∃ s2, install_paropt_from_src o host orc tmpdir metis_dir s = .ok s2
        ∧ traceJ s2.trace = traceJ s.trace ++ [ncpu / 2]) := by
  have hcores : host.compile_cores = ncpu / 2 := by
    rw [hhost]; rfl
  refine ⟨rfl, ?_, ?_, ?_, ?_, ?_⟩
  · intro o orc tmpdir s hall h1 h2 h3 h4 h5 h6 h7
    refine ⟨_, metis_src_ok o host orc tmpdir s hall h1 h2 h3 h4 h5 h6 h7, ?_⟩
    simp [traceJ, List.filterMap_append, hcores]
  · intro o orc tmpdir s hall h1 h2 h3 h4 h5 h6 h7
    refine ⟨_, mumps_src_ok o host orc tmpdir s hall h1 h2 h3 h4 h5 h6 h7, ?_⟩
    simp [traceJ, List.filterMap_append]
  · intro o orc tmpdir config_opts s hall hinc h1 h2 h3 h5 h6 h7
    refine ⟨_, ipopt_src_ok o host orc tmpdir config_opts s hall hinc
      h1 h2 h3 h5 h6 h7, ?_⟩
    simp [traceJ, List.filterMap_append, hcores]
  · intro o orc tmpdir e rest s hall h1 h2 h3 h4 h5 h6 h7
    obtain ⟨s2, hs2, _, _, htr⟩ :=
      hsl_src_ok o host orc tmpdir e rest s hall h1 h2 h3 h4 h5 h6 h7
    exact ⟨s2, hs2, by rw [htr, hcores]⟩
  · intro o orc tmpdir metis_dir s h1 h2 h3 h6 h8 hmk
    obtain ⟨s2, hs2, _, _, htr⟩ :=
      paropt_src_ok o host orc tmpdir metis_dir s h1 h2 h3 h6 h8 hmk
    exact ⟨s2, hs2, by rw [htr, hcores]⟩

/-- Witness for C6 at a concrete input (an 8-core host): the METIS build
invokes make with `-j 4`, the MUMPS build with `-j 1`. -/
theorem claim6_witness :
    (∃ s2, install_metis_from_src {} host8 {} ["tmp", "metis"] startState = .ok s2
      ∧ traceJ s2.trace = [4])
    ∧ (∃ s2, install_mumps_from_src {} host8 {} ["tmp", "mumps"] startState = .ok s2
      ∧ traceJ s2.trace = [1]) := by
  constructor
  · obtain ⟨s2, h, htr⟩ := (claim6_parallelism 8 host8 rfl).2.1 {} {}
      ["tmp", "metis"] startState (by decide) rfl rfl rfl rfl rfl rfl rfl
    exact ⟨s2, h, by simpa using htr⟩
  · obtain ⟨s2, h, htr⟩ := (claim6_parallelism 8 host8 rfl).2.2.1 {} {}
      ["tmp", "mumps"] startState (by decide) rfl rfl rfl rfl rfl rfl rfl
    exact ⟨s2, h, by simpa using htr⟩

/-! ## Claim C8: HSL archive extraction and rename -/

/-- Renaming a path maps the old path itself to the new one. -/
theorem replacePfx_self (old new : FPath) : replacePfx old new old = new := by
  unfold replacePfx
  rw [if_pos (List.isPrefixOf_iff_prefix.mpr List.prefix_rfl)]
  simp

/-- When no extension of the new path equals the old one, no renamed path
equals the old path. -/
theorem replacePfx_ne (old new p : FPath)
    (h : ∀ t, new ++ t ≠ old) : replacePfx old new p ≠ old := by
  unfold replacePfx
  by_cases hp : old.isPrefixOf p
  · rw [if_pos hp]; exact h _
  · rw [if_neg hp]
    intro hq
    subst hq
    exact hp (List.isPrefixOf_iff_prefix.mpr List.prefix_rfl)

/-- C8: when the HSL tar-file option is set and the build runs,
`install_hsl_from_src` reads the archive's top-level directory name `dname`
from the first entry of the member list, extracts the archive, and renames
that directory to the canonical name `coinhsl` — whatever `dname` is — all
before the configure step (`hsl_unpack_phase` is exactly the part of
`install_hsl_from_src` that precedes configure): at its end the build
directory contains `coinhsl`, the original `dname` directory is gone, and
the recorded actions end with the extraction followed by the rename. -/
theorem claim8_hsl_extract_rename (o : Opts) (orc : StepOracle)
    (tmpdir : FPath) (tarp : FPath) (dname : String) (rest : Archive)
    (s : BuildState)
    (htar : o.hsl_tar_file = some tarp)
    (h1 : orc.git.clone_ok = true) (h2 : orc.git.config_ok = true)
    (h3 : orc.git.checkout_ok = true) (h4 : orc.pre_ok = true) :
    ∃ s3, hsl_unpack_phase o orc tmpdir (⟨[dname], true⟩ :: rest) s = .ok s3
      ∧ s3.cwd = tmpdir
      ∧ s3.fs.is_dir (tmpdir ++ ["coinhsl"]) = true
      ∧ (dname ≠ "coinhsl" → s3.fs.is_dir (tmpdir ++ [dname]) = false)
      ∧ s3.trace = s.trace ++
          [.runCmd ["git", "clone", "-q", (build_info .hsl).url, pathStr tmpdir],
           .runCmd ["git", "config", "--local", "advice.detachedHead", "false"],
           .runCmd ["git", "checkout", "-q", (build_info .hsl).branch],
           .runCmd ["tar", "xf", pathStr tarp],
           .renamePath (tmpdir ++ [dname]) (tmpdir ++ ["coinhsl"])] := by
  have hun := hsl_unpack_ok o orc tmpdir ⟨[dname], true⟩ rest s h1 h2 h3 h4
  set fs2 := extractInto s.fs tmpdir (⟨[dname], true⟩ :: rest) with hfs2
  have hmem : tmpdir ++ [dname] ∈ fs2.dirs := by
    rw [hfs2, extractInto, if_pos rfl]
    exact extractInto_dirs_mono tmpdir rest _ _ (by simp)
  have hnew : (tmpdir ++ ["coinhsl"])
      ∈ (fs2.renameTree (tmpdir ++ [dname]) (tmpdir ++ ["coinhsl"])).dirs := by
    simp only [FS.renameTree]
    exact List.mem_map.mpr ⟨tmpdir ++ [dname], hmem, replacePfx_self _ _⟩
  refine ⟨_, hun, rfl, List.elem_eq_true_of_mem hnew, ?_, ?_⟩
  · intro hne
    apply Bool.eq_false_iff.mpr
    intro hc
    have hm : tmpdir ++ [dname]
        ∈ (fs2.renameTree (tmpdir ++ [dname]) (tmpdir ++ ["coinhsl"])).dirs := by
      simpa [FS.is_dir] using hc
    simp only [FS.renameTree, List.mem_map] at hm
    obtain ⟨p, _, hp⟩ := hm
    refine replacePfx_ne (tmpdir ++ [dname]) (tmpdir ++ ["coinhsl"]) p ?_ hp
    intro t hteq
    rw [List.append_assoc] at hteq
    have := List.append_cancel_left hteq
    simp at this
    exact hne this.1.symm
  · simp [htar, pyStr]

/-- Witness for C8 at a concrete input: after the unpack phase, `coinhsl`
exists in the build directory and the archive's own folder name does not. -/
theorem claim8_witness :
    ∃ s3, hsl_unpack_phase c8opts {} ["tmp", "hsl"] c8archive startState = .ok s3
      ∧ s3.fs.is_dir (["tmp", "hsl", "coinhsl"]) = true
      ∧ s3.fs.is_dir (["tmp", "hsl", "coinhsl-2014.01.17"]) = false := by
  obtain ⟨s3, hok, _, hdir, habs, _⟩ := claim8_hsl_extract_rename c8opts {}
    ["tmp", "hsl"] ["downloads", "coinhsl.tar.gz"] "coinhsl-2014.01.17"
    [⟨["coinhsl-2014.01.17", "ma27d.f"], false⟩] startState rfl rfl rfl rfl rfl
  exact ⟨s3, hok, hdir, habs (by decide)⟩

/-! ## Claim C5: batch validation in `check_sanity` -/

/-- C5: `check_sanity` collects every missing-required-command error and
every missing-user-input error (nonexistent HSL tar file, nonexistent SNOPT
directory, pyOptSparse too old for ParOpt) into one list; it exits with
status 1, after printing them all, exactly when the list is non-empty (so it
never exits on the first missing command alone); and the compiler/library
link tests run only once the error list was found empty. -/
theorem claim5_check_sanity (o : Opts) (env : CheckEnv) :
    (∀ c ∈ sanity_required_cmds o env, which env c = false →
      CheckErr.missingCmd c ∈ (check_sanity o env).errors)
    ∧ (∀ t, o.hsl_tar_file = some t → env.hsl_tar_is_file = false →
        CheckErr.hslTarMissing t ∈ (check_sanity o env).errors)
    ∧ (∀ dsn, o.snopt_dir = some dsn → env.snopt_dir_is_dir = false →
        CheckErr.snoptDirMissing dsn ∈ (check_sanity o env).errors)
    ∧ (o.include_paropt = true →
        verLt o.pyoptsparse_version (2, 1, 2) = true →
        CheckErr.paroptVersionTooOld ∈ (check_sanity o env).errors)
    ∧ ((check_sanity o env).exited = true ↔ (check_sanity o env).errors ≠ [])
    ∧ ((check_sanity o env).ran_compile_checks = true →
        (check_sanity o env).errors = []
          ∧ (o.compile_required || o.fall_back) = true) := by
  have herr : (check_sanity o env).errors = sanity_errors o env := by
    unfold check_sanity
    split <;> rfl
  refine ⟨?_, ?_, ?_, ?_, ?_, ?_⟩
  · intro c hc hw
    rw [herr]
    unfold sanity_errors
    unfold sanity_required_cmds at hc
    rcases List.mem_append.mp hc with hmk | hloop
    · refine List.mem_append.mpr (Or.inl (List.mem_append.mpr (Or.inl ?_)))
      unfold sanity_make_errors
      by_cases hb : (o.compile_required || o.fall_back) = true
      · rw [if_pos hb]
        have hcm : c = sanity_make_name env o := by
          rw [if_pos hb] at hmk
          simpa using hmk
        rw [← hcm, hw]
        simp
      · rw [if_neg hb] at hmk
        simp at hmk
    · refine List.mem_append.mpr (Or.inr ?_)
      unfold sanity_cmd_errors
      exact List.mem_filterMap.mpr ⟨c, hloop, by simp [hw]⟩
  · intro t ht hf
    rw [herr]
    unfold sanity_errors sanity_input_errors
    rw [ht, hf]
    simp
  · intro dsn hd hf
    rw [herr]
    unfold sanity_errors sanity_input_errors
    rw [hd, hf]
    simp
  · intro hp hv
    rw [herr]
    unfold sanity_errors sanity_input_errors
    rw [hp, hv]
    simp
  · by_cases h : (sanity_errors o env).length > 0
    · unfold check_sanity
      rw [if_pos h]
      constructor
      · intro _ hnil
        have hnil2 : sanity_errors o env = [] := hnil
        rw [hnil2] at h
        simp at h
      · intro _
        rfl
    · unfold check_sanity
      rw [if_neg h]
      constructor
      · intro hx; exact absurd hx (by simp)
      · intro hne
        exact absurd (List.length_pos.mpr hne) h
  · by_cases h : (sanity_errors o env).length > 0
    · unfold check_sanity
      rw [if_pos h]
      intro hx
      exact absurd hx (by simp)
    · unfold check_sanity
      rw [if_neg h]
      intro hx
      have hlen : (sanity_errors o env).length = 0 := by omega
      exact ⟨List.length_eq_zero.mp hlen, by simpa using hx⟩

/-- Witness for C5 at a concrete input: with git, the compilers and tar all
missing and a nonexistent HSL tar file, every one of those errors is
collected and the run exits — no fail-fast after the first. -/
theorem claim5_witness :
    CheckErr.missingCmd "git" ∈ (check_sanity c5opts c5env).errors
    ∧ CheckErr.missingCmd "gcc" ∈ (check_sanity c5opts c5env).errors
    ∧ CheckErr.missingCmd "tar" ∈ (check_sanity c5opts c5env).errors
    ∧ CheckErr.hslTarMissing ["hsl.tar.gz"] ∈ (check_sanity c5opts c5env).errors
    ∧ (check_sanity c5opts c5env).exited = true := by
  obtain ⟨hcmds, hhsl, _, _, hexit, _⟩ := claim5_check_sanity c5opts c5env
  refine ⟨hcmds "git" (by decide) (by decide),
    hcmds "gcc" (by decide) (by decide),
    hcmds "tar" (by decide) (by decide),
    hhsl ["hsl.tar.gz"] rfl rfl, ?_⟩
  exact hexit.mpr (by decide)

/-! ## Claim C7: totality and idempotence of the uninstaller -/

/-- Unlinking an existing regular file succeeds and only removes it. -/
theorem unlink_ok (fs : FS) (p : FPath) (hf : p ∈ fs.files)
    (hd : p ∉ fs.dirs) :
    fs.unlink p = .ok { files := fs.files.filter (· ≠ p), dirs := fs.dirs } := by
  have h1 : ¬ (fs.is_dir p = true) := fun hc => hd (List.mem_of_elem_eq_true hc)
  have h2 : fs.is_file p = true := List.elem_eq_true_of_mem hf
  simp [FS.unlink, h1, h2]

/-- Unlinking a duplicate-free list of existing regular files succeeds,
leaves the directories unchanged and only removes files. -/
theorem unlinkList_ok : ∀ (l : List FPath) (fs : FS), l.Nodup →
    (∀ p ∈ l, p ∈ fs.files) → (∀ p ∈ l, p ∉ fs.dirs) →
    ∃ fs2, unlinkList fs l = .ok fs2
      ∧ fs2.dirs = fs.dirs ∧ (∀ q ∈ fs2.files, q ∈ fs.files) := by
  intro l
  induction l with
  | nil => intro fs _ _ _; exact ⟨fs, rfl, rfl, fun q hq => hq⟩
  | cons p rest ih =>
    intro fs hnd hf hd
    have hu := unlink_ok fs p (hf p (by simp)) (hd p (by simp))
    have hpnotin := (List.nodup_cons.mp hnd).1
    obtain ⟨fs2, h2, hdirs, hfiles⟩ :=
      ih { files := fs.files.filter (· ≠ p), dirs := fs.dirs }
        (List.nodup_cons.mp hnd).2
        (by
          intro q hq
          refine List.mem_filter.mpr ⟨hf q (by simp [hq]), ?_⟩
          simp only [decide_eq_true_eq]
          intro he
          exact hpnotin (he ▸ hq))
        (by intro q hq; exact hd q (by simp [hq]))
    refine ⟨fs2, ?_, by rw [hdirs],
      fun q hq => (List.mem_filter.mp (hfiles q hq)).1⟩
    unfold unlinkList
    rw [hu]
    simpa [bind, Except.bind] using h2

/-- Everything a glob returns is an existing entry that matches. -/
theorem globIn_mem_sub (fs : FS) (dir : FPath) (pat : String) (q : FPath)
    (hq : q ∈ globIn fs dir pat) :
    (q ∈ fs.files ∨ q ∈ fs.dirs) ∧ globChild dir pat q = true := by
  unfold globIn at hq
  have h2 := List.mem_filter.mp (List.mem_dedup.mp hq)
  exact ⟨List.mem_append.mp h2.1, h2.2⟩

/-- A glob result is duplicate-free. -/
theorem globIn_nodup (fs : FS) (dir : FPath) (pat : String) :
    (globIn fs dir pat).Nodup :=
  List.nodup_dedup _

/-- In a safe filesystem, directories and files are disjoint. -/
theorem safe_disjoint (pfx : FPath) (fs : FS)
    (h : uninstallSafe pfx fs = true) :
    ∀ p ∈ fs.dirs, p ∉ fs.files := by
  intro p hp hpf
  have hall := (List.all_eq_true.mp h) p hp
  rw [Bool.and_eq_true] at hall
  have h1 := hall.1
  simp at h1
  exact h1 hpf

/-- In a safe filesystem, no directory matches a registry library glob under
`prefix/lib`. -/
theorem safe_lib_glob (pfx : FPath) (fs : FS)
    (h : uninstallSafe pfx fs = true) (k : DepKey) (lg : String)
    (hlg : (build_info k).src_lib_glob = some lg) :
    ∀ p ∈ fs.dirs, globChild (pfx ++ ["lib"]) lg p = false := by
  intro p hp
  have hall := (List.all_eq_true.mp h) p hp
  rw [Bool.and_eq_true] at hall
  have h2 := (List.all_eq_true.mp hall.2) k (by cases k <;> simp [allDepKeys])
  rw [Bool.and_eq_true] at h2
  have h3 := h2.1
  rw [hlg] at h3
  simpa using h3

/-- In a safe filesystem, no directory matches a registry include glob at
its include directory. -/
theorem safe_inc_glob (pfx : FPath) (fs : FS)
    (h : uninstallSafe pfx fs = true) (k : DepKey) (sub : String)
    (gl : List String)
    (hsub : (build_info k).include_subdir = some sub)
    (hgl : (build_info k).include_glob_list = some gl) :
    ∀ pat ∈ gl, ∀ p ∈ fs.dirs,
      globChild (joinComp (pfx ++ ["include", "coin-or"]) sub) pat p = false := by
  intro pat hpat p hp
  have hall := (List.all_eq_true.mp h) p hp
  rw [Bool.and_eq_true] at hall
  have h2 := (List.all_eq_true.mp hall.2) k (by cases k <;> simp [allDepKeys])
  rw [Bool.and_eq_true] at h2
  have h3 := h2.2
  rw [hsub, hgl] at h3
  have h4 := (List.all_eq_true.mp h3) pat hpat
  simpa using h4

/-- Safety only mentions directory membership positively and file
membership negatively, so it is preserved when both sets shrink. -/
theorem safe_mono (pfx : FPath) (fs fs2 : FS)
    (h : uninstallSafe pfx fs = true)
    (hd : ∀ q ∈ fs2.dirs, q ∈ fs.dirs)
    (hf : ∀ q ∈ fs2.files, q ∈ fs.files) :
    uninstallSafe pfx fs2 = true := by
  rw [uninstallSafe, List.all_eq_true]
  intro p hp
  have hB := (List.all_eq_true.mp h) p (hd p hp)
  rw [Bool.and_eq_true] at hB
  rw [Bool.and_eq_true]
  refine ⟨?_, hB.2⟩
  have h1 := hB.1
  simp at h1
  have h2 : p ∉ fs2.files := fun hm => h1 (hf p hm)
  simpa using h2

/-- `rmtree` of an existing directory succeeds and only removes entries. -/
theorem rmtree_ok (fs : FS) (p : FPath) (h : fs.is_dir p = true) :
    ∃ fs2, fs.rmtree p = .ok fs2
      ∧ (∀ q ∈ fs2.files, q ∈ fs.files) ∧ (∀ q ∈ fs2.dirs, q ∈ fs.dirs) := by
  unfold FS.rmtree
  rw [if_pos h]
  exact ⟨_, rfl, fun q hq => (List.mem_filter.mp hq).1,
    fun q hq => (List.mem_filter.mp hq).1⟩

/-- The guarded `rmdir` never fails and only removes the one directory. -/
theorem rmdirSafe_sub (fs : FS) (p : FPath) :
    (fs.rmdirSafe p).files = fs.files
      ∧ ∀ q ∈ (fs.rmdirSafe p).dirs, q ∈ fs.dirs := by
  unfold FS.rmdirSafe
  split
  · exact ⟨rfl, fun q hq => (List.mem_filter.mp hq).1⟩
  · exact ⟨rfl, fun q hq => hq⟩

/-- The per-pattern unlink loop succeeds when no directory matches any of
the patterns, and only removes entries. -/
theorem globUnlinkLoop_ok (dir : FPath) : ∀ (pats : List String) (fs : FS),
    (∀ pat ∈ pats, ∀ p ∈ fs.dirs, globChild dir pat p = false) →
    (∀ p ∈ fs.dirs, p ∉ fs.files) →
    ∃ fs2, globUnlinkLoop dir pats fs = .ok fs2
      ∧ (∀ q ∈ fs2.files, q ∈ fs.files) ∧ (∀ q ∈ fs2.dirs, q ∈ fs.dirs) := by
  intro pats
  induction pats with
  | nil => intro fs _ _; exact ⟨fs, rfl, fun q hq => hq, fun q hq => hq⟩
  | cons pat rest ih =>
    intro fs hglob hdisj
    have hl : ∀ q ∈ globIn fs dir pat, q ∈ fs.files := by
      intro q hq
      obtain ⟨hmem, hmatch⟩ := globIn_mem_sub fs dir pat q hq
      rcases hmem with hfq | hdq
      · exact hfq
      · rw [hglob pat (by simp) q hdq] at hmatch; cases hmatch
    have hld : ∀ q ∈ globIn fs dir pat, q ∉ fs.dirs := by
      intro q hq hdq
      have hmatch := (globIn_mem_sub fs dir pat q hq).2
      rw [hglob pat (by simp) q hdq] at hmatch; cases hmatch
    obtain ⟨fs1, h1, hdirs1, hfiles1⟩ :=
      unlinkList_ok (globIn fs dir pat) fs (globIn_nodup _ _ _) hl hld
    obtain ⟨fs2, h2, hf2, hd2⟩ := ih fs1
      (by
        intro pat2 hp2 p hp
        exact hglob pat2 (by simp [hp2]) p (hdirs1 ▸ hp))
      (by
        intro p hp hpf
        exact hdisj p (hdirs1 ▸ hp) (hfiles1 p hpf))
    refine ⟨fs2, ?_, fun q hq => hfiles1 q (hf2 q hq),
      fun q hq => hdirs1 ▸ hd2 q hq⟩
    unfold globUnlinkLoop
    rw [h1]
    simpa [bind, Except.bind] using h2

/-- The include-file block of an item uninstall succeeds on a safe
filesystem and only removes entries. -/
theorem uninstall_item_includes_ok (pfx : FPath) (key : DepKey) (fs : FS)
    (h : uninstallSafe pfx fs = true) :
    ∃ fs2, uninstall_item_includes pfx key fs = .ok fs2
      ∧ (∀ q ∈ fs2.files, q ∈ fs.files) ∧ (∀ q ∈ fs2.dirs, q ∈ fs.dirs) := by
  rcases hsub : (build_info key).include_subdir with _ | sub
  · exact ⟨fs, by simp [uninstall_item_includes, hsub, pure, Except.pure],
      fun q hq => hq, fun q hq => hq⟩
  · rcases hgl : (build_info key).include_glob_list with _ | gl
    · by_cases hdir :
        fs.is_dir (joinComp (pfx ++ ["include", "coin-or"]) sub) = true
      · obtain ⟨fs2, h2, hf2, hd2⟩ :=
          rmtree_ok fs (joinComp (pfx ++ ["include", "coin-or"]) sub) hdir
        exact ⟨fs2,
          by simp [uninstall_item_includes, hsub, hgl, hdir, h2], hf2, hd2⟩
      · exact ⟨fs,
          by simp [uninstall_item_includes, hsub, hgl, hdir, pure, Except.pure],
          fun q hq => hq, fun q hq => hq⟩
    · obtain ⟨fs1, h1, hf1, hd1⟩ :=
        globUnlinkLoop_ok (joinComp (pfx ++ ["include", "coin-or"]) sub) gl fs
          (fun pat hp p hpd => safe_inc_glob pfx fs h key sub gl hsub hgl pat hp p hpd)
          (safe_disjoint pfx fs h)
      refine ⟨fs1.rmdirSafe (joinComp (pfx ++ ["include", "coin-or"]) sub),
        ?_, ?_, ?_⟩
      · simp [uninstall_item_includes, hsub, hgl, h1, bind, Except.bind,
          pure, Except.pure]
      · intro q hq
        rw [(rmdirSafe_sub fs1 _).1] at hq
        exact hf1 q hq
      · intro q hq
        exact hd1 q ((rmdirSafe_sub fs1 _).2 q hq)

/-- The library block of an item uninstall succeeds on a safe filesystem and
only removes files. -/
theorem uninstall_item_libs_ok (pfx : FPath) (key : DepKey) (fs : FS)
    (h : uninstallSafe pfx fs = true) :
    ∃ fs2, uninstall_item_libs pfx key fs = .ok fs2
      ∧ (∀ q ∈ fs2.files, q ∈ fs.files) ∧ (∀ q ∈ fs2.dirs, q ∈ fs.dirs) := by
  rcases hlg : (build_info key).src_lib_glob with _ | lg
  · exact ⟨fs, by simp [uninstall_item_libs, hlg, pure, Except.pure],
      fun q hq => hq, fun q hq => hq⟩
  · have hl : ∀ q ∈ globIn fs (pfx ++ ["lib"]) lg, q ∈ fs.files := by
      intro q hq
      obtain ⟨hmem, hmatch⟩ := globIn_mem_sub fs (pfx ++ ["lib"]) lg q hq
      rcases hmem with hfq | hdq
      · exact hfq
      · rw [safe_lib_glob pfx fs h key lg hlg q hdq] at hmatch; cases hmatch
    have hld : ∀ q ∈ globIn fs (pfx ++ ["lib"]) lg, q ∉ fs.dirs := by
      intro q hq hdq
      have hmatch := (globIn_mem_sub fs (pfx ++ ["lib"]) lg q hq).2
      rw [safe_lib_glob pfx fs h key lg hlg q hdq] at hmatch; cases hmatch
    by_cases hlen : (globIn fs (pfx ++ ["lib"]) lg).length > 0
    · obtain ⟨fs2, h2, hdirs, hfiles⟩ :=
        unlinkList_ok (globIn fs (pfx ++ ["lib"]) lg) fs
          (globIn_nodup _ _ _) hl hld
      exact ⟨fs2, by simp [uninstall_item_libs, hlg, hlen, h2],
        hfiles, fun q hq => hdirs ▸ hq⟩
    · exact ⟨fs,
        by simp [uninstall_item_libs, hlg, hlen, pure, Except.pure],
        fun q hq => hq, fun q hq => hq⟩

/-- One item uninstall succeeds on a safe filesystem, only removes entries,
and leaves the filesystem safe. -/
theorem uninstall_built_item_ok (pfx : FPath) (key : DepKey) (fs : FS)
    (h : uninstallSafe pfx fs = true) :
    ∃ fs2, uninstall_built_item pfx key fs = .ok fs2
      ∧ (∀ q ∈ fs2.files, q ∈ fs.files) ∧ (∀ q ∈ fs2.dirs, q ∈ fs.dirs)
      ∧ uninstallSafe pfx fs2 = true := by
  obtain ⟨fs1, h1, hf1, hd1⟩ := uninstall_item_includes_ok pfx key fs h
  have hs1 : uninstallSafe pfx fs1 = true := safe_mono pfx fs fs1 h hd1 hf1
  obtain ⟨fs2, h2, hf2, hd2⟩ := uninstall_item_libs_ok pfx key fs1 hs1
  refine ⟨fs2, ?_, fun q hq => hf1 q (hf2 q hq), fun q hq => hd1 q (hd2 q hq),
    safe_mono pfx fs1 fs2 hs1 hd2 hf2⟩
  unfold uninstall_built_item
  rw [h1]
  simpa [bind, Except.bind] using h2

/-- A `unlink`-if-`is_file` step (the conda-script removals) succeeds on a
disjoint filesystem and only removes a file. -/
theorem unlink_if_file_ok (fs : FS) (p : FPath)
    (hdisj : ∀ q ∈ fs.dirs, q ∉ fs.files) :
    ∃ fs2, (if fs.is_file p = true then fs.unlink p
        else (pure fs : Except PyExc FS)) = .ok fs2
      ∧ (∀ q ∈ fs2.files, q ∈ fs.files) ∧ fs2.dirs = fs.dirs := by
  by_cases hf : fs.is_file p = true
  · rw [if_pos hf]
    have hpf : p ∈ fs.files := List.mem_of_elem_eq_true hf
    have hpd : p ∉ fs.dirs := fun hd => hdisj p hd hpf
    rw [unlink_ok fs p hpf hpd]
    exact ⟨_, rfl, fun q hq => (List.mem_filter.mp hq).1, rfl⟩
  · rw [if_neg hf]
    exact ⟨fs, rfl, fun q hq => hq, rfl⟩

/-- `remove_conda_scripts`, with the activate/deactivate directories as
`initialize()` sets them, succeeds on a disjoint filesystem and only removes
files. -/
theorem remove_scripts_ok (ca ic : Bool) (pfx : FPath) (fs : FS)
    (hdisj : ∀ q ∈ fs.dirs, q ∉ fs.files) :
    ∃ fs2, remove_conda_scripts ca ic
        (if ca && !ic then some (pfx ++ ["etc", "conda", "activate.d"]) else none)
        (if ca && !ic then some (pfx ++ ["etc", "conda", "deactivate.d"]) else none)
        fs = .ok fs2
      ∧ (∀ q ∈ fs2.files, q ∈ fs.files) ∧ (∀ q ∈ fs2.dirs, q ∈ fs.dirs) := by
  by_cases hc : (ca && !ic) = true
  · obtain ⟨fs1, h1, hf1, hd1⟩ := unlink_if_file_ok fs
      (pfx ++ ["etc", "conda", "activate.d"] ++ ["pyoptsparse_lib.sh"]) hdisj
    obtain ⟨fs2, h2, hf2, hd2⟩ := unlink_if_file_ok fs1
      (pfx ++ ["etc", "conda", "deactivate.d"] ++ ["pyoptsparse_lib.sh"])
      (by intro q hq hqf; exact hdisj q (hd1 ▸ hq) (hf1 q hqf))
    refine ⟨fs2, ?_, fun q hq => hf1 q (hf2 q hq),
      fun q hq => by rw [← hd1, ← hd2]; exact hq⟩
    simp only [if_pos hc]
    unfold remove_conda_scripts
    rw [if_pos hc]
    show (do
      let fs3 ← if fs.is_file ((pfx ++ ["etc", "conda", "activate.d"])
            ++ ["pyoptsparse_lib.sh"]) = true then
          fs.unlink ((pfx ++ ["etc", "conda", "activate.d"])
            ++ ["pyoptsparse_lib.sh"])
        else pure fs
      if fs3.is_file ((pfx ++ ["etc", "conda", "deactivate.d"])
            ++ ["pyoptsparse_lib.sh"]) = true then
        fs3.unlink ((pfx ++ ["etc", "conda", "deactivate.d"])
          ++ ["pyoptsparse_lib.sh"])
      else pure fs3) = Except.ok fs2
    split
    next hcf =>
      rw [if_pos hcf] at h1
      rw [h1]
      simpa [bind, Except.bind] using h2
    next hcf =>
      rw [if_neg hcf] at h1
      injection h1 with hh
      subst hh
      simpa [bind, Except.bind, pure, Except.pure] using h2
  · refine ⟨fs, ?_, fun q hq => hq, fun q hq => hq⟩
    simp only [if_neg hc]
    unfold remove_conda_scripts
    rw [if_neg hc]
    rfl

/-- The full `uninstall_built` succeeds on a safe filesystem, whatever is or
is not installed, and leaves the filesystem safe. -/
theorem uninstall_built_ok (ca ic : Bool) (pfx : FPath) (fs : FS)
    (h : uninstallSafe pfx fs = true) :
    ∃ fs2, uninstall_built ca ic
        (if ca && !ic then some (pfx ++ ["etc", "conda", "activate.d"]) else none)
        (if ca && !ic then some (pfx ++ ["etc", "conda", "deactivate.d"]) else none)
        pfx fs = .ok fs2
      ∧ uninstallSafe pfx fs2 = true := by
  obtain ⟨f1, e1, hf1, hd1, hs1⟩ := uninstall_built_item_ok pfx .paropt fs h
  obtain ⟨f2, e2, hf2, hd2, hs2⟩ := uninstall_built_item_ok pfx .ipopt f1 hs1
  obtain ⟨f3, e3, hf3, hd3, hs3⟩ := uninstall_built_item_ok pfx .hsl f2 hs2
  obtain ⟨f4, e4, hf4, hd4, hs4⟩ := uninstall_built_item_ok pfx .mumps f3 hs3
  obtain ⟨f5, e5, hf5, hd5, hs5⟩ := uninstall_built_item_ok pfx .metis f4 hs4
  by_cases hic : ic = false
  · obtain ⟨f6, e6, hf6, hd6⟩ := remove_scripts_ok ca ic pfx f5
      (fun q hq => safe_disjoint pfx f5 hs5 q hq)
    refine ⟨f6, ?_, safe_mono pfx f5 f6 hs5 hd6 hf6⟩
    unfold uninstall_built
    rw [e1]; simp only [bind, Except.bind]
    rw [e2]; simp only [bind, Except.bind]
    rw [e3]; simp only [bind, Except.bind]
    rw [e4]; simp only [bind, Except.bind]
    rw [e5]; simp only [bind, Except.bind]
    rw [if_pos hic]
    exact e6
  · refine ⟨f5, ?_, hs5⟩
    unfold uninstall_built
    rw [e1]; simp only [bind, Except.bind]
    rw [e2]; simp only [bind, Except.bind]
    rw [e3]; simp only [bind, Except.bind]
    rw [e4]; simp only [bind, Except.bind]
    rw [e5]; simp only [bind, Except.bind]
    rw [if_neg hic]
    rfl

/-- C7 (amended): on every filesystem whose glob matches are regular files —
in particular any layout this installer itself produces — the uninstall mode
raises no exception and exits with status 0, whatever artifacts are present,
and running it a second time against the now-clean prefix again raises no
exception and exits 0.  (For filesystems where a directory matches a library
glob, `Path.unlink` raises — see the counterexample.) -/
theorem claim7_uninstall_idempotent (ca ic : Bool) (pfx : FPath) (fs : FS)
    (h : uninstallSafe pfx fs = true) :
    ∃ fs1, perform_uninstall ca ic pfx fs = .ok (fs1, 0)
      ∧ uninstallSafe pfx fs1 = true
      ∧ ∃ fs2, perform_uninstall ca ic pfx fs1 = .ok (fs2, 0) := by
  obtain ⟨fs1, e1, hs1⟩ := uninstall_built_ok ca ic pfx fs h
  obtain ⟨fs2, e2, _⟩ := uninstall_built_ok ca ic pfx fs1 hs1
  refine ⟨fs1, ?_, hs1, fs2, ?_⟩
  · unfold perform_uninstall
    simp only [bind, Except.bind]
    rw [e1]
    rfl
  · unfold perform_uninstall
    simp only [bind, Except.bind]
    rw [e2]
    rfl

/-- C7 counterexample: the claim as stated quantifies over any prefix state,
but on a prefix where a directory name matches a library glob
(`prefix/lib/libparopt.d` here), the uninstall mode raises
(`Path.unlink` on a directory) instead of exiting zero. -/
theorem claim7_counterexample :
    isOkU (perform_uninstall false false ["p"] c7badfs) = false := by decide

/-- Witness for the amended C7 at a concrete input: a typical installed
layout is safe, uninstalls without an exception with exit status 0, and a
second uninstall against the cleaned prefix also succeeds. -/
theorem claim7_witness :
    uninstallSafe ["p"] c7fs = true
    ∧ ∃ fs1, perform_uninstall false false ["p"] c7fs = .ok (fs1, 0)
      ∧ ∃ fs2, perform_uninstall false false ["p"] fs1 = .ok (fs2, 0) := by
  refine ⟨by decide, ?_⟩
  obtain ⟨fs1, h1, _, fs2, h2⟩ :=
    claim7_uninstall_idempotent false false ["p"] c7fs (by decide)
  exact ⟨fs1, h1, fs2, h2⟩

/-! ## Claim C9: SNOPT source-file selection -/

/-- C9: evaluated on a SNOPT source listing holding both `sn27lu.f` and
`sn27lu90.f`: the module-level script `grab-all-fortran-files.py` prints all
three `sn27lu` variants — its two membership tests compare the name strings
against `Path` objects, which is always false in Python, so `TO_SKIP` stays
`["snopth.f"]` — while `copy_snopt_source` in `snopt_module.py` implements
the claimed selection on the same listing (keeping only `sn27lu.f`), and
`copy_snopt_files` in `build_pyoptsparse.py` copies every regular file
except `snopth.f` (directories excluded). -/
theorem claim9_snopt_selection :
    grab_to_skip c9paths = ["snopth.f"]
    ∧ (grab_printed c9paths).contains ⟨"/sdir/sn27lu.f"⟩ = true
    ∧ (grab_printed c9paths).contains ⟨"/sdir/sn27lu77.f"⟩ = true
    ∧ (grab_printed c9paths).contains ⟨"/sdir/sn27lu90.f"⟩ = true
    ∧ (grab_printed c9paths).contains ⟨"/sdir/snopth.f"⟩ = false
    ∧ (copy_snopt_source c9names).1 = ["snoptc.f", "sn27lu.f"]
    ∧ copy_snopt_files_selected c9fs ["", "sdir"]
        = [["", "sdir", "snoptc.f"], ["", "sdir", "sn27lu.f"],
           ["", "sdir", "sn27lu77.f"], ["", "sdir", "sn27lu90.f"]] := by
  decide

end BuildPyoptsparse
